import Mathlib

/-!
# Data shaping of the country bubble chart (`src/script.js`)

A shallow embedding of the data-shaping code of `script.js`: the region
aggregation of `updateData`, the node builder of `updateChart` and the sort and
row rendering of `updateTable`, followed by theorems about them.

Conventions of the embedding.

* A field of a JSON record that is absent reads as `undefined`; it is `none`.
* A `TypeError` thrown by the script is an `Except.error`, or the `error` field
  of a result record when the effects made before the throw matter.
* Numbers are rationals. The only irrational operation, `Math.sqrt` inside
  `d3.scaleSqrt`, is the parameter `sqrt` of the functions that need it.
* The library functions `d3.max` and `d3.scaleSqrt` follow d3-array and
  d3-scale as of d3 version 6, the first to pass `(event, d)` to a listener, as
  the script expects.
* The script calls `updateChart` with `countryData` and `"country"` or with
  `regionData` and `"region"`; the dataset carries its mode (`ChartData`).
* `Array.prototype.sort` is the stable sort the language prescribes when the
  compare function is consistent; otherwise its order is the parameter
  `engine` of the functions that sort.
* An ordinary JavaScript object used as a dictionary is the list of its own
  properties in creation order (`Dict`), enumerated by `objectEntries` in the
  order of the language: array-index keys first, ascending, then the others in
  creation order. Reading a key that is not an own property walks to
  `Object.prototype`.
-/

namespace Script

/-! ## Data model -/

/-- A language object of a country record. -/
structure Language where
  name : String
  nativeName : String
deriving DecidableEq, Repr

/-- A country record of `data/countries.json`; `none` is an absent field. -/
structure Country where
  name : Option String
  alpha3Code : Option String
  capital : Option String
  region : Option String
  population : Option Int
  nativeName : Option String
  borders : Option (List String)
  languages : Option (List Language)
  timezones : Option (List String)
deriving DecidableEq, Repr

/-- An element of `regionData`: `{region, countries, timezones}`. -/
structure RegionSummary where
  region : String
  countries : Nat
  timezones : Nat
deriving DecidableEq, Repr

/-- The value `regions[region]` (and `finalRegions[key]`): the names pushed so
far and the timezones seen so far. The `Set` of timezones is the list of its
elements in insertion order, spread to the same list by `[...value.timezones]`. -/
structure RegionEntry where
  countries : List (Option String)
  timezones : List String
deriving DecidableEq, Repr

/-! ## Ordinary objects used as dictionaries -/

/-- Own properties of an ordinary object, in creation order. -/
abbrev Dict (α : Type) := List (String × α)

/-- The property names every ordinary object inherits from `Object.prototype`. -/
def objectPrototypeKeys : List String :=
  ["constructor", "__defineGetter__", "__defineSetter__", "hasOwnProperty",
   "__lookupGetter__", "__lookupSetter__", "isPrototypeOf", "propertyIsEnumerable",
   "toString", "valueOf", "__proto__", "toLocaleString"]

/-- The result of the property read `obj[key]`. -/
inductive Lookup (α : Type) where
  | own (v : α)
  | inherited
  | undefined
deriving DecidableEq, Repr

/-- The read `obj[key]`: an own property, else a member of `Object.prototype`,
else `undefined`. -/
def Dict.get {α : Type} (o : Dict α) (key : String) : Lookup α :=
  match o.lookup key with
  | some v => Lookup.own v
  | none => if key ∈ objectPrototypeKeys then Lookup.inherited else Lookup.undefined

/-- The assignment `obj[key] = v`: an existing own property keeps its place, a
new one is created last; assigning `__proto__` runs the inherited setter and
creates no own property. -/
def Dict.set {α : Type} (o : Dict α) (key : String) (v : α) : Dict α :=
  if key = "__proto__" then o
  else if o.any (fun e => e.1 == key) then o.map (fun e => if e.1 = key then (key, v) else e)
  else o ++ [(key, v)]

/-- Mutation in place of the object stored under an own property. -/
def Dict.modify {α : Type} (o : Dict α) (key : String) (v : α) : Dict α :=
  o.map (fun e => if e.1 = key then (key, v) else e)

/-- The numeric value of a string of decimal digits. -/
def digitsValue (cs : List Char) : Nat :=
  cs.foldl (fun n c => 10 * n + (c.toNat - 48)) 0

/-- A property key is an array index when it is the canonical decimal numeral of
an integer between `0` and `2^32 - 2`. -/
def isArrayIndex (key : String) : Bool :=
  match key.data with
  | [] => false
  | [c] => c.isDigit
  | c :: cs =>
    c.isDigit && c != '0' && cs.all Char.isDigit && decide (digitsValue (c :: cs) ≤ 4294967294)

/-- The integer an array-index key denotes. -/
def arrayIndexValue (key : String) : Nat := digitsValue key.data

/-- The order of array-index keys in an enumeration: ascending numeric value. -/
def indexLe {α : Type} (a b : String × α) : Prop := arrayIndexValue a.1 ≤ arrayIndexValue b.1

instance {α : Type} : DecidableRel (indexLe : String × α → String × α → Prop) :=
  fun a b => inferInstanceAs (Decidable (arrayIndexValue a.1 ≤ arrayIndexValue b.1))

/-- The enumeration `Object.entries(obj)`: array-index keys in ascending numeric
order, then the remaining keys in creation order. -/
def objectEntries {α : Type} (o : Dict α) : List (String × α) :=
  (o.filter (fun e => isArrayIndex e.1)).insertionSort indexLe
    ++ o.filter (fun e => !isArrayIndex e.1)

/-! ## Region aggregation (`updateData`, lines 38-68) -/

/-- The method `Set.prototype.add` on a set of strings. -/
def setAdd (s : List String) (x : String) : List String :=
  if x ∈ s then s else s ++ [x]

/-- The body of `countryData.forEach(country => ...)` (lines 40-54). -/
def addCountry (regions : Dict RegionEntry) (country : Country) :
    Except String (Dict RegionEntry) :=
  match country.region with
  | none => Except.ok regions
  | some region =>
    if region = "" then Except.ok regions
    else
      let regions1 :=
        match regions.get region with
        | Lookup.undefined => regions.set region { countries := [], timezones := [] }
        | _ => regions
      match regions1.get region with
      | Lookup.own entry =>
        match country.timezones with
        | some tzs =>
          Except.ok (regions1.modify region
            { countries := entry.countries ++ [country.name],
              timezones := tzs.foldl setAdd entry.timezones })
        | none => Except.error "TypeError: country.timezones is undefined"
      | _ => Except.error "TypeError: regions[region].countries is undefined"

/-- The loop `countryData.forEach(...)` over the whole list. -/
def forEachCountry : List Country → Dict RegionEntry → Except String (Dict RegionEntry)
  | [], regions => Except.ok regions
  | country :: rest, regions =>
    match addCountry regions country with
    | Except.ok regions1 => forEachCountry rest regions1
    | Except.error e => Except.error e

/-- The loop building `finalRegions` (lines 57-63). -/
def finalizeRegions (regions : Dict RegionEntry) : Dict RegionEntry :=
  (objectEntries regions).foldl
    (fun fin e => fin.set e.1 { countries := e.2.countries, timezones := e.2.timezones }) []

/-- The mapping of `Object.entries(finalRegions)` to summaries (lines 64-68). -/
def summarize (finalRegions : Dict RegionEntry) : List RegionSummary :=
  (objectEntries finalRegions).map
    (fun e => { region := e.1, countries := e.2.countries.length,
                timezones := e.2.timezones.length })

/-- The region aggregation of `updateData` (lines 39-68): the value assigned to
`regionData`, or the `TypeError` that aborts the call. -/
def aggregateRegions (countryData : List Country) : Except String (List RegionSummary) :=
  match forEachCountry countryData [] with
  | Except.ok regions => Except.ok (summarize (finalizeRegions regions))
  | Except.error e => Except.error e

/-! ## Numbers of the chart -/

/-- The content of a numeric slot of a node: `undefined`, `NaN` or a number. -/
inductive Value where
  | undefined
  | nan
  | num (q : ℚ)
deriving DecidableEq, Repr

/-- The subtraction `a - b`; an operand that is `undefined` or `NaN` gives `NaN`. -/
def Value.sub : Value → Value → Value
  | Value.num a, Value.num b => Value.num (a - b)
  | _, _ => Value.nan

/-- The division `v / d` by a non-zero constant. -/
def Value.div : Value → ℚ → Value
  | Value.num q, d => Value.num (q / d)
  | _, _ => Value.nan

/-- The call `Math.max(k, v)` with a constant `k`. -/
def mathMax (k : ℚ) : Value → Value
  | Value.num q => Value.num (max k q)
  | _ => Value.nan

/-- One iteration of the loop of `d3.max` (d3-array): `value` replaces `max` when
it is not nullish and `max < value || (max === undefined && value >= value)`. -/
def d3maxStep (max value : Value) : Value :=
  match value, max with
  | Value.num v, Value.num m => if m < v then Value.num v else Value.num m
  | Value.num v, Value.undefined => Value.num v
  | _, _ => max

/-- The call `d3.max(data, valueAccessor)` on the accessed values: `undefined`
for a list without a number. -/
def d3max (values : List Value) : Value :=
  values.foldl d3maxStep Value.undefined

/-- The transform of a square-root scale (`transformSqrt` in `pow.js` of
d3-scale): `x < 0 ? -Math.sqrt(-x) : Math.sqrt(x)`. -/
def transformSqrt (sqrt : ℚ → ℚ) (x : ℚ) : ℚ :=
  if x < 0 then -sqrt (-x) else sqrt x

/-- The normalisation of a continuous scale of d3 (`normalize` in `continuous.js`
of d3-scale): `(b -= (a = +a)) ? x => (x - a) / b : constant(isNaN(b) ? NaN : 0.5)`,
that is `(x - a) / (b - a)`, and the constant `0.5` when the domain is collapsed. -/
def normalize (a b x : ℚ) : ℚ :=
  if b - a ≠ 0 then (x - a) / (b - a) else 1 / 2

/-- The number interpolator of the range (d3-interpolate): `a * (1 - t) + b * t`. -/
def interpolateNumber (a b t : ℚ) : ℚ := a * (1 - t) + b * t

/-- The two-point map of a continuous scale on transformed values (`bimap` in
`continuous.js`): the bounds are swapped when the domain is descending. -/
def bimap (d0 d1 r0 r1 x : ℚ) : ℚ :=
  if d1 < d0 then interpolateNumber r1 r0 (normalize d1 d0 x)
  else interpolateNumber r0 r1 (normalize d0 d1 x)

/-- The scale `d3.scaleSqrt().domain([0, maxValue]).range([r0, r1])` applied to
`x`. An argument that is nullish or `NaN` maps to `undefined`; a domain bound
that is not a number makes every result `NaN`. -/
def scaleSqrt (sqrt : ℚ → ℚ) (maxValue : Value) (r0 r1 : ℚ) (x : Value) : Value :=
  match x with
  | Value.num v =>
    match maxValue with
    | Value.num m =>
      Value.num (bimap (transformSqrt sqrt 0) (transformSqrt sqrt m) r0 r1 (transformSqrt sqrt v))
    | _ => Value.nan
  | _ => Value.undefined

/-! ## Node builder (`updateChart`, lines 123-163) -/

/-- The value of a property read `d[key]` on a country record. -/
inductive Field where
  | undefined
  | string (s : String)
  | number (n : Int)
  | strings (xs : List String)
  | languages (xs : List Language)
deriving DecidableEq, Repr

/-- A string field that may be absent. -/
def Field.ofString : Option String → Field
  | some s => Field.string s
  | none => Field.undefined

/-- An array-of-strings field that may be absent. -/
def Field.ofStrings : Option (List String) → Field
  | some xs => Field.strings xs
  | none => Field.undefined

/-- The property read `d[key]` on a country record. A key that names no field
reads as `undefined` (an inherited method is no array either). -/
def Country.get (d : Country) (key : String) : Field :=
  if key = "name" then Field.ofString d.name
  else if key = "alpha3Code" then Field.ofString d.alpha3Code
  else if key = "capital" then Field.ofString d.capital
  else if key = "region" then Field.ofString d.region
  else if key = "population" then
    match d.population with
    | some n => Field.number n
    | none => Field.undefined
  else if key = "nativeName" then Field.ofString d.nativeName
  else if key = "borders" then Field.ofStrings d.borders
  else if key = "languages" then
    match d.languages with
    | some xs => Field.languages xs
    | none => Field.undefined
  else if key = "timezones" then Field.ofStrings d.timezones
  else Field.undefined

/-- The accessor `d => +d[dataSelect]` of the branch `dataSelect === "population"`. -/
def populationValue (d : Country) : Value :=
  match d.get "population" with
  | Field.number n => Value.num n
  | _ => Value.nan

/-- The accessor `d => Array.isArray(d[dataSelect]) ? d[dataSelect].length : 0`. -/
def arrayLengthValue (dataSelect : String) (d : Country) : Value :=
  match d.get dataSelect with
  | Field.strings xs => Value.num xs.length
  | Field.languages xs => Value.num xs.length
  | _ => Value.num 0

/-- The object `additionalInfo` of a node. -/
inductive AdditionalInfo where
  | country (realName capital region : Option String) (population : Option Int)
      (nativeName : Option String) (borders : Option (List String))
      (languages : Option (List Language)) (timezones : Option (List String))
  | region (countries timezones : Nat)
deriving DecidableEq, Repr

/-- A node of the chart. `fontsize` is the number before `px`, `dx` the number
between `-` and `em`. The random start position `x`, `y` is read by no function
of the embedding and is left out. -/
structure Node where
  value : Value
  radius : Value
  name : Option String
  additionalInfo : AdditionalInfo
  fontsize : Value
  dx : Value
deriving DecidableEq, Repr

/-- The variables `updateChart` sets in lines 123-151. -/
structure Settings (α : Type) where
  valueAccessor : α → Value
  maxValue : Value
  radiusScale : Value → Value
  getFontSize : Value → Value
  getDx : Value → Value
  getName : α → Option String
  d3Strength : ℚ

/-- The branch `sortType === "country"` (lines 124-138). -/
def countrySettings (sqrt : ℚ → ℚ) (data : List Country) (dataSelect : String) :
    Settings Country :=
  if dataSelect = "population" then
    let valueAccessor := populationValue
    let maxValue := d3max (data.map valueAccessor)
    { valueAccessor := valueAccessor
      maxValue := maxValue
      radiusScale := scaleSqrt sqrt maxValue 5 100
      getFontSize := fun radius => mathMax 1 (radius.div 3)
      getDx := fun radius => mathMax (33 / 10) (radius.div 28)
      getName := fun d => d.alpha3Code
      d3Strength := 5 }
  else
    let valueAccessor := arrayLengthValue dataSelect
    let maxValue := d3max (data.map valueAccessor)
    { valueAccessor := valueAccessor
      maxValue := maxValue
      radiusScale := scaleSqrt sqrt maxValue 5 40
      getFontSize := fun radius => mathMax 1 (radius.div 3)
      getDx := fun radius => mathMax (13 / 10) (radius.div 28)
      getName := fun d => d.alpha3Code
      d3Strength := 5 }

/-- The branch of the other sort type (lines 140-150). -/
def regionSettings (sqrt : ℚ → ℚ) (data : List RegionSummary) (dataSelect : String) :
    Settings RegionSummary :=
  let valueAccessor : RegionSummary → Value :=
    if dataSelect = "countriesInRegion" then fun d => Value.num d.countries
    else fun d => Value.num d.timezones
  let maxValue := d3max (data.map valueAccessor)
  { valueAccessor := valueAccessor
    maxValue := maxValue
    radiusScale := scaleSqrt sqrt maxValue 40 100
    getFontSize := fun radius => mathMax 1 (radius.div 3)
    getDx := fun radius => mathMax (24 / 10) (radius.div 45)
    getName := fun d => some d.region
    d3Strength := 200 }

/-- The object `additionalInfo` built from a country record. -/
def countryInfo (d : Country) : AdditionalInfo :=
  AdditionalInfo.country d.name d.capital d.region d.population d.nativeName d.borders
    d.languages d.timezones

/-- The object `additionalInfo` built from a region summary. -/
def regionInfo (d : RegionSummary) : AdditionalInfo :=
  AdditionalInfo.region d.countries d.timezones

/-- The mapping `data.map(d => ({...}))` of lines 154-163. -/
def buildNodes {α : Type} (s : Settings α) (info : α → AdditionalInfo) (data : List α) :
    List Node :=
  data.map (fun d =>
    { value := s.valueAccessor d
      radius := s.radiusScale (s.valueAccessor d)
      name := s.getName d
      additionalInfo := info d
      fontsize := s.getFontSize (s.radiusScale (s.valueAccessor d))
      dx := s.getDx (s.radiusScale (s.valueAccessor d)) })

/-- The first argument of `updateChart` together with its third: the script
passes `countryData` with `"country"` and `regionData` with `"region"`. -/
inductive ChartData where
  | country (data : List Country)
  | region (data : List RegionSummary)
deriving DecidableEq, Repr

/-- The argument `sortType` of a call of `updateChart`. -/
def ChartData.sortType : ChartData → String
  | ChartData.country _ => "country"
  | ChartData.region _ => "region"

/-- The array `nodes` of `updateChart(data, dataSelect, sortType)` as built in
lines 123-163, before `updateTable` sorts it. -/
def chartNodes (sqrt : ℚ → ℚ) (data : ChartData) (dataSelect : String) : List Node :=
  match data with
  | ChartData.country data => buildNodes (countrySettings sqrt data dataSelect) countryInfo data
  | ChartData.region data => buildNodes (regionSettings sqrt data dataSelect) regionInfo data

/-! ## Table renderer (`updateTable`, lines 242-300) -/

/-- The value interpolated into a table cell by a template literal. -/
inductive Cell where
  | undefined
  | text (s : String)
  | int (n : Int)
  | list (xs : List String)
deriving DecidableEq, Repr

/-- The cell of a string that may be absent. -/
def Cell.ofString : Option String → Cell
  | some s => Cell.text s
  | none => Cell.undefined

/-- The cell of an integer that may be absent. -/
def Cell.ofInt : Option Int → Cell
  | some n => Cell.int n
  | none => Cell.undefined

/-- The compare function `(a, b) => b.value - a.value` of line 268. -/
def comparator (a b : Node) : Value := b.value.sub a.value

/-- The order the sort keeps: `a` stays before `b` unless the compare function
is positive on `(a, b)`; a result that is `NaN` counts as zero. -/
def sortsBefore (a b : Node) : Prop :=
  match comparator a b with
  | Value.num q => q ≤ 0
  | _ => True

instance : DecidableRel sortsBefore := fun a b => by
  unfold sortsBefore
  cases comparator a b <;> infer_instance

/-- The value is a number, neither `undefined` nor `NaN`. -/
def Value.isNumber : Value → Bool
  | Value.num _ => true
  | _ => false

/-- What the engine does in `Array.prototype.sort` when the compare function is
no consistent comparator (here: when it returns `NaN`): the order is left to
the implementation, which still returns a rearrangement of the array. -/
structure SortEngine where
  sort : List Node → List Node
  perm : ∀ data, (sort data).Perm data

/-- The in-place sort `data.sort(...)` of line 268. When every value is a
number the compare function is a consistent comparator and the language fixes
the result: the array sorted by it, equal elements in their former order, which
a stable insertion sort computes. Otherwise the compare function returns `NaN`
on some pair and the order is the engine's. -/
def sortNodes (engine : SortEngine) (data : List Node) : List Node :=
  if data.all (fun d => d.value.isNumber) then data.insertionSort sortsBefore
  else engine.sort data

/-- The headers of lines 253-258. -/
def tableHeaders (sortType : String) : List String :=
  if sortType = "country" then
    ["Name", "Real Name", "Capital", "Region", "Population", "Languages", "Borders", "Timezones"]
  else ["Region", "Countries", "Timezones"]

/-- The text of one language in a row: `name (nativeName)`. -/
def languageText (lang : Language) : String :=
  lang.name ++ " (" ++ lang.nativeName ++ ")"

/-- The cells of the row built for one node (lines 277-298), or the `TypeError`
of calling `join` or `map` on `undefined`. -/
def renderRow (sortType : String) (d : Node) : Except String (List Cell) :=
  if sortType = "country" then
    match d.additionalInfo with
    | AdditionalInfo.country realName capital region population _ borders languages timezones =>
      match borders with
      | none => Except.error "TypeError: d.additionalInfo.borders is undefined"
      | some borders =>
        match timezones with
        | none => Except.error "TypeError: d.additionalInfo.timezones is undefined"
        | some timezones =>
          match languages with
          | none => Except.error "TypeError: d.additionalInfo.languages is undefined"
          | some languages =>
            Except.ok
              [Cell.ofString d.name, Cell.ofString realName, Cell.ofString capital,
               Cell.ofString region, Cell.ofInt population,
               Cell.text (String.intercalate ", " (languages.map languageText)),
               Cell.text (String.intercalate ", " borders),
               Cell.text (String.intercalate ", " timezones)]
    | AdditionalInfo.region _ _ => Except.error "TypeError: d.additionalInfo.borders is undefined"
  else
    match d.additionalInfo with
    | AdditionalInfo.region countries timezones =>
      Except.ok [Cell.ofString d.name, Cell.int countries, Cell.int timezones]
    | AdditionalInfo.country _ _ _ _ _ _ _ timezones =>
      Except.ok
        [Cell.ofString d.name, Cell.undefined,
         match timezones with
         | some xs => Cell.list xs
         | none => Cell.undefined]

/-- The loop `data.forEach(d => ...)` of lines 276-300: the rows appended to the
table body, and the `TypeError` that stopped the loop, if any. -/
def appendRows (sortType : String) : List Node → List (List Cell) × Option String
  | [] => ([], none)
  | d :: rest =>
    match renderRow sortType d with
    | Except.error e => ([], some e)
    | Except.ok row => ((appendRows sortType rest).1.cons row, (appendRows sortType rest).2)

/-- What a call of `updateTable` leaves behind. -/
structure TableResult where
  headers : List String
  sorted : List Node
  rows : List (List Cell)
  error : Option String
deriving DecidableEq, Repr

/-- The function `updateTable(data, sortType)`. -/
def updateTable (engine : SortEngine) (data : List Node) (sortType : String) : TableResult :=
  let sorted := sortNodes engine data
  { headers := tableHeaders sortType
    sorted := sorted
    rows := (appendRows sortType sorted).1
    error := (appendRows sortType sorted).2 }

/-! ## The calls of `updateChart` and the two caches -/

/-- What a call of `updateChart` leaves behind, up to line 166: the nodes as
built, and the table. A `TypeError` of `updateTable` ends the call. -/
structure ChartResult where
  nodes : List Node
  table : TableResult
deriving DecidableEq, Repr

/-- The function `updateChart(data, dataSelect, sortType)` up to line 166. -/
def updateChart (sqrt : ℚ → ℚ) (engine : SortEngine) (data : ChartData) (dataSelect : String) : ChartResult :=
  { nodes := chartNodes sqrt data dataSelect
    table := updateTable engine (chartNodes sqrt data dataSelect) data.sortType }

/-- The two caches `countryData` and `regionData`; `none` is `null`. -/
structure State where
  countryData : Option (List Country)
  regionData : Option (List RegionSummary)
deriving DecidableEq, Repr

/-- The callback a started fetch of `data/countries.json` runs on completion:
line 35 only stores the data, lines 14-15 and 79-80 store it and update the chart. -/
inductive Pending where
  | store
  | storeAndChart (dataSelect : String)
deriving DecidableEq, Repr

/-- What a call of an event handler leaves behind: the caches, the call of
`updateChart` it made, the fetch it started, and the `TypeError` that ended it. -/
structure Outcome where
  state : State
  chart : Option ChartResult
  pending : Option Pending
  error : Option String
deriving DecidableEq, Repr

/-- A handler that ends by calling `updateChart`. -/
def chartOutcome (sqrt : ℚ → ℚ) (engine : SortEngine) (s : State) (data : ChartData)
    (dataSelect : String) :
    Outcome :=
  { state := s
    chart := some (updateChart sqrt engine data dataSelect)
    pending := none
    error := (updateChart sqrt engine data dataSelect).table.error }

/-- The function `updateData()` (lines 23-84); `dataSelect` and `sortByCountry`
are the two values read from the page in lines 24-25. -/
def updateData (sqrt : ℚ → ℚ) (engine : SortEngine) (dataSelect : String)
    (sortByCountry : Bool) (s : State) :
    Outcome :=
  if sortByCountry then
    match s.countryData with
    | some countryData => chartOutcome sqrt engine s (ChartData.country countryData) dataSelect
    | none =>
      { state := s, chart := none, pending := some (Pending.storeAndChart dataSelect),
        error := none }
  else
    match s.regionData with
    | some regionData => chartOutcome sqrt engine s (ChartData.region regionData) dataSelect
    | none =>
      match s.countryData with
      | none => { state := s, chart := none, pending := some Pending.store, error := none }
      | some countryData =>
        match aggregateRegions countryData with
        | Except.error e => { state := s, chart := none, pending := none, error := some e }
        | Except.ok regionData =>
          chartOutcome sqrt engine { s with regionData := some regionData }
            (ChartData.region regionData) dataSelect

/-- The function `fetchDataAndPlot()` (lines 11-20). -/
def fetchDataAndPlot (sqrt : ℚ → ℚ) (engine : SortEngine) (s : State) : Outcome :=
  match s.countryData with
  | none =>
    { state := s, chart := none, pending := some (Pending.storeAndChart "population"),
      error := none }
  | some countryData => chartOutcome sqrt engine s (ChartData.country countryData) "population"

/-- The completion of a fetch with the parsed file `data`: its callback runs. -/
def resolveFetch (sqrt : ℚ → ℚ) (engine : SortEngine) (p : Pending) (data : List Country)
    (s : State) : Outcome :=
  match p with
  | Pending.store =>
    { state := { s with countryData := some data }, chart := none, pending := none,
      error := none }
  | Pending.storeAndChart dataSelect =>
    chartOutcome sqrt engine { s with countryData := some data } (ChartData.country data) dataSelect

/-! ## Quantities the statements refer to -/

/-- The variable `maxValue` of a call of `updateChart`. -/
def chartMaxValue (sqrt : ℚ → ℚ) (data : ChartData) (dataSelect : String) : Value :=
  match data with
  | ChartData.country data => (countrySettings sqrt data dataSelect).maxValue
  | ChartData.region data => (regionSettings sqrt data dataSelect).maxValue

/-- The lower bound of the output range of the radius scale of a call. -/
def rangeMin (data : ChartData) : ℚ :=
  match data with
  | ChartData.country _ => 5
  | ChartData.region _ => 40

/-- The upper bound of the output range of the radius scale of a call. -/
def rangeMax (data : ChartData) (dataSelect : String) : ℚ :=
  match data with
  | ChartData.country _ => if dataSelect = "population" then 100 else 40
  | ChartData.region _ => 100

/-- A square root on integer-valued numbers, exact on perfect squares; it
instantiates the parameter `sqrt` in examples. -/
def integerSqrt (x : ℚ) : ℚ := (Nat.sqrt x.num.toNat : ℚ)

/-- An engine that runs the stable insertion sort on every array; it
instantiates the parameter `engine` in examples. -/
def stableEngine : SortEngine :=
  { sort := fun data => data.insertionSort sortsBefore
    perm := fun data => List.perm_insertionSort sortsBefore data }

/-- A country record with the given region and timezones and no other field. -/
def regionRecord (region : Option String) (timezones : Option (List String)) : Country :=
  { name := none, alpha3Code := none, capital := none, region := region, population := none,
    nativeName := none, borders := none, languages := none, timezones := timezones }

/-- A country record with a code and a population, its three arrays empty. -/
def populationRecord (code : String) (population : Int) : Country :=
  { name := some code, alpha3Code := some code, capital := none, region := none,
    population := some population, nativeName := none, borders := some [],
    languages := some [], timezones := some [] }

/-- The info bag of a node carries the three arrays `borders`, `languages` and
`timezones` of a country. -/
def Node.hasArrays (d : Node) : Prop :=
  match d.additionalInfo with
  | AdditionalInfo.country _ _ _ _ _ (some _) (some _) (some _) => True
  | _ => False

instance : DecidablePred Node.hasArrays := fun d => by
  unfold Node.hasArrays
  split <;> infer_instance

/-- Both values are numbers and the value of `a` is at least the value of `b`
(the comparison `a.value >= b.value`). -/
def Node.valueGe (a b : Node) : Prop :=
  match a.value, b.value with
  | Value.num x, Value.num y => y ≤ x
  | _, _ => False

instance : DecidableRel Node.valueGe := fun a b => by
  unfold Node.valueGe
  split <;> infer_instance

/-- A country record with a region and a population that lacks its three
array fields. -/
def recordWithoutArrays : Country :=
  { name := some "Nowhere", alpha3Code := some "NWH", capital := some "None", region := some "X",
    population := some 1, nativeName := some "Nowhere", borders := none, languages := none,
    timezones := none }

/-- The key under which a record is aggregated: its region when the test
`if (region)` passes, that is when it is a non-empty string. -/
def Country.regionKey (c : Country) : Option String :=
  match c.region with
  | some r => if r = "" then none else some r
  | none => none

/-- The records of a dataset that carry the region `r`. -/
def members (cs : List Country) (r : String) : List Country :=
  cs.filter (fun c => decide (c.region = some r))

/-- The timezone strings of the records that carry the region `r`, in order,
with repetitions. -/
def memberTimezones (cs : List Country) (r : String) : List String :=
  (members cs r).flatMap (fun c => c.timezones.getD [])

/-- The distinct elements of a list in the order of their first occurrence. -/
def firstOccurrences (l : List String) : List String := l.foldl setAdd []

/-- The entry the loop is expected to hold for the region `r`. -/
def expectedEntry (cs : List Country) (r : String) : RegionEntry :=
  { countries := (members cs r).map (fun c => c.name)
    timezones := firstOccurrences (memberTimezones cs r) }

/-- The dictionary the loop is expected to build: one entry per region key, in
the order of first occurrence. -/
def expectedRegions (cs : List Country) : Dict RegionEntry :=
  (firstOccurrences (cs.filterMap Country.regionKey)).map (fun r => (r, expectedEntry cs r))

/-- The loop body does not throw on the record: when it has a region key, the
key is no member of `Object.prototype` and the record has its `timezones`. -/
def Country.aggregates (c : Country) : Prop :=
  ∀ r, c.regionKey = some r → r ∉ objectPrototypeKeys ∧ c.timezones ≠ none

/-- The summary made of an entry of `finalRegions`. -/
def summaryOf (e : String × RegionEntry) : RegionSummary :=
  { region := e.1, countries := e.2.countries.length, timezones := e.2.timezones.length }

/-- A country record with its three arrays and no `population` field. -/
def recordWithoutPopulation : Country :=
  { name := some "Terra", alpha3Code := some "AAA", capital := none, region := none,
    population := none, nativeName := none, borders := some [], languages := some [],
    timezones := some [] }

/-! ## The empty caches (C10) -/

/-- C10: in region mode with both caches empty, `updateData` throws nothing,
updates no chart or table, leaves both caches empty and only starts a fetch;
when that fetch completes its callback fills the country cache alone: the
region cache is still empty and again no chart or table is updated. -/
theorem updateData_region_before_fetch (sqrt : ℚ → ℚ) (engine : SortEngine)
    (dataSelect : String)
    (data : List Country) :
    updateData sqrt engine dataSelect false { countryData := none, regionData := none } =
        { state := { countryData := none, regionData := none }, chart := none,
          pending := some Pending.store, error := none } ∧
      resolveFetch sqrt engine Pending.store data { countryData := none, regionData := none } =
        { state := { countryData := some data, regionData := none }, chart := none,
          pending := none, error := none } := by
  constructor <;> rfl

/-! ## Metrics that do not belong to the mode (C9) -/

/-- C9, as stated, fails: in country mode the region metric `countriesInRegion`
selects an accessor that returns the number `0` on a record, and in region mode
the metric `population` selects one that returns the timezone count; neither
returns `undefined`. -/
theorem invalid_metric_not_undefined :
    (countrySettings integerSqrt [populationRecord "AAA" 7] "countriesInRegion").valueAccessor
        (populationRecord "AAA" 7) = Value.num 0 ∧
      (regionSettings integerSqrt [{ region := "X", countries := 2, timezones := 3 }]
        "population").valueAccessor { region := "X", countries := 2, timezones := 3 } =
        Value.num 3 ∧
      Value.num 0 ≠ Value.undefined ∧ Value.num 3 ≠ Value.undefined := by
  refine ⟨?_, ?_, by simp, by simp⟩
  · simp [countrySettings, arrayLengthValue, Country.get, populationRecord]
  · simp [regionSettings]

/-- C9, amended: a metric that does not belong to the mode is not rejected. In
country mode the region metrics select the array-length accessor, which returns
`0` on every country record; in region mode every metric other than
`countriesInRegion` selects the accessor of the timezone count. -/
theorem invalid_metric_value (sqrt : ℚ → ℚ) (countries : List Country)
    (regions : List RegionSummary) (dataSelect : String) (c : Country) (r : RegionSummary) :
    (dataSelect = "countriesInRegion" ∨ dataSelect = "uniqueTimezones" →
        (countrySettings sqrt countries dataSelect).valueAccessor c = Value.num 0) ∧
      (dataSelect ≠ "countriesInRegion" →
        (regionSettings sqrt regions dataSelect).valueAccessor r = Value.num r.timezones) := by
  constructor
  · rintro (h | h) <;> subst h <;> simp [countrySettings, arrayLengthValue, Country.get]
  · intro h
    simp [regionSettings, h]

/-- The amended C9 at a country record and at a region summary. -/
theorem invalid_metric_value_witness :
    (countrySettings integerSqrt [populationRecord "AAA" 7] "uniqueTimezones").valueAccessor
        (populationRecord "AAA" 7) = Value.num 0 ∧
      (regionSettings integerSqrt [{ region := "X", countries := 2, timezones := 3 }]
        "population").valueAccessor { region := "X", countries := 2, timezones := 3 } =
        Value.num (3 : ℕ) :=
  ⟨(invalid_metric_value integerSqrt [populationRecord "AAA" 7] [] "uniqueTimezones"
      (populationRecord "AAA" 7) { region := "X", countries := 2, timezones := 3 }).1
      (Or.inr rfl),
   (invalid_metric_value integerSqrt [] [{ region := "X", countries := 2, timezones := 3 }]
      "population" (populationRecord "AAA" 7)
      { region := "X", countries := 2, timezones := 3 }).2 (by decide)⟩

/-! ## The node builder (C6) -/

/-- C6: for every dataset, metric and mode the node list built by `updateChart`
is as long as the dataset and its nodes follow the records one by one. In
country mode the name is the alpha-3 code and the value is the population for
`population` and the length of the array field for `borders`, `timezones` and
`languages` (`0` when the field is missing, and `0` for a field such as
`capital` that is no array); in region mode the name is the region and the
value is the country count for `countriesInRegion` and the timezone count for
`uniqueTimezones`. -/
theorem chartNodes_follow_records (sqrt : ℚ → ℚ) (countries : List Country)
    (regions : List RegionSummary) (dataSelect : String) :
    (chartNodes sqrt (ChartData.country countries) dataSelect).length = countries.length ∧
    (chartNodes sqrt (ChartData.region regions) dataSelect).length = regions.length ∧
    (chartNodes sqrt (ChartData.country countries) dataSelect).map Node.name =
      countries.map (fun d => d.alpha3Code) ∧
    (chartNodes sqrt (ChartData.region regions) dataSelect).map Node.name =
      regions.map (fun d => some d.region) ∧
    (chartNodes sqrt (ChartData.country countries) "population").map Node.value =
      countries.map (fun d =>
        match d.population with
        | some n => Value.num n
        | none => Value.nan) ∧
    (chartNodes sqrt (ChartData.country countries) "borders").map Node.value =
      countries.map (fun d => Value.num ((d.borders.getD []).length)) ∧
    (chartNodes sqrt (ChartData.country countries) "timezones").map Node.value =
      countries.map (fun d => Value.num ((d.timezones.getD []).length)) ∧
    (chartNodes sqrt (ChartData.country countries) "languages").map Node.value =
      countries.map (fun d => Value.num ((d.languages.getD []).length)) ∧
    (chartNodes sqrt (ChartData.country countries) "capital").map Node.value =
      countries.map (fun _ => Value.num 0) ∧
    (chartNodes sqrt (ChartData.region regions) "countriesInRegion").map Node.value =
      regions.map (fun d => Value.num d.countries) ∧
    (chartNodes sqrt (ChartData.region regions) "uniqueTimezones").map Node.value =
      regions.map (fun d => Value.num d.timezones) := by
  refine ⟨?_, ?_, ?_, ?_, ?_, ?_, ?_, ?_, ?_, ?_, ?_⟩
  · simp [chartNodes, buildNodes]
  · simp [chartNodes, buildNodes]
  · simp only [chartNodes, buildNodes, countrySettings]
    split <;> simp [Function.comp_def]
  · simp [chartNodes, buildNodes, regionSettings, Function.comp_def]
  · simp only [chartNodes, buildNodes, countrySettings, if_true, List.map_map]
    apply List.map_congr_left
    intro d _
    simp only [Function.comp, populationValue, Country.get]
    cases d.population <;> simp
  · simp only [chartNodes, buildNodes, countrySettings, List.map_map]
    apply List.map_congr_left
    intro d _
    cases h : d.borders <;> simp [arrayLengthValue, Country.get, h, Field.ofStrings]
  · simp only [chartNodes, buildNodes, countrySettings, List.map_map]
    apply List.map_congr_left
    intro d _
    cases h : d.timezones <;> simp [arrayLengthValue, Country.get, h, Field.ofStrings]
  · simp only [chartNodes, buildNodes, countrySettings, List.map_map]
    apply List.map_congr_left
    intro d _
    cases h : d.languages <;> simp [arrayLengthValue, Country.get, h]
  · simp only [chartNodes, buildNodes, countrySettings, List.map_map]
    apply List.map_congr_left
    intro d _
    cases h : d.capital <;> simp [arrayLengthValue, Country.get, h, Field.ofString]
  · simp [chartNodes, buildNodes, regionSettings, Function.comp_def]
  · simp [chartNodes, buildNodes, regionSettings, Function.comp_def]

/-- The loop of `d3.max` started on a number or on `undefined` ends on a number
that is the start or one of the values and is at least the start and every
number among the values. -/
theorem foldl_d3maxStep_max (values : List Value) (acc : Value) (m : ℚ)
    (hacc : acc ≠ Value.nan) (h : values.foldl d3maxStep acc = Value.num m) :
    (acc = Value.num m ∨ Value.num m ∈ values) ∧
      (∀ a, acc = Value.num a → a ≤ m) ∧ ∀ q, Value.num q ∈ values → q ≤ m := by
  induction values generalizing acc with
  | nil =>
    simp only [List.foldl_nil] at h
    subst h
    simp
  | cons v rest ih =>
    rw [List.foldl_cons] at h
    have hstep : d3maxStep acc v ≠ Value.nan := by
      unfold d3maxStep
      cases v <;> cases acc <;> simp at hacc ⊢
      split <;> simp
    obtain ⟨h1, h2, h3⟩ := ih (d3maxStep acc v) hstep h
    cases v with
    | undefined =>
      have he : d3maxStep acc Value.undefined = acc := by cases acc <;> rfl
      rw [he] at h1 h2
      refine ⟨h1.imp id (List.mem_cons_of_mem _), h2, ?_⟩
      intro q hq
      rcases List.mem_cons.mp hq with hq | hq
      · exact Value.noConfusion hq
      · exact h3 q hq
    | nan =>
      have he : d3maxStep acc Value.nan = acc := by cases acc <;> rfl
      rw [he] at h1 h2
      refine ⟨h1.imp id (List.mem_cons_of_mem _), h2, ?_⟩
      intro q hq
      rcases List.mem_cons.mp hq with hq | hq
      · exact Value.noConfusion hq
      · exact h3 q hq
    | num x =>
      cases acc with
      | nan => exact absurd rfl hacc
      | undefined =>
        have he : d3maxStep Value.undefined (Value.num x) = Value.num x := rfl
        rw [he] at h1 h2
        refine ⟨Or.inr ?_, fun a ha => Value.noConfusion ha, ?_⟩
        · rcases h1 with h1 | h1
          · rw [← h1]; exact List.mem_cons_self _ _
          · exact List.mem_cons_of_mem _ h1
        · intro q hq
          rcases List.mem_cons.mp hq with hq | hq
          · rw [Value.num.inj hq]; exact h2 x rfl
          · exact h3 q hq
      | num a =>
        by_cases hlt : a < x
        · have he : d3maxStep (Value.num a) (Value.num x) = Value.num x := by
            simp [d3maxStep, hlt]
          rw [he] at h1 h2
          refine ⟨Or.inr ?_, ?_, ?_⟩
          · rcases h1 with h1 | h1
            · rw [← h1]; exact List.mem_cons_self _ _
            · exact List.mem_cons_of_mem _ h1
          · intro b hb
            rw [← Value.num.inj hb]
            exact le_trans hlt.le (h2 x rfl)
          · intro q hq
            rcases List.mem_cons.mp hq with hq | hq
            · rw [Value.num.inj hq]; exact h2 x rfl
            · exact h3 q hq
        · have he : d3maxStep (Value.num a) (Value.num x) = Value.num a := by
            simp [d3maxStep, hlt]
          rw [he] at h1 h2
          refine ⟨h1.imp id (List.mem_cons_of_mem _), h2, ?_⟩
          intro q hq
          rcases List.mem_cons.mp hq with hq | hq
          · rw [Value.num.inj hq]; exact le_trans (not_lt.mp hlt) (h2 a rfl)
          · exact h3 q hq

/-- When `d3.max` returns a number, that number is one of the values and no
number among the values exceeds it. -/
theorem d3max_is_maximum (values : List Value) (m : ℚ) (h : d3max values = Value.num m) :
    Value.num m ∈ values ∧ ∀ q, Value.num q ∈ values → q ≤ m := by
  obtain ⟨h1, -, h3⟩ := foldl_d3maxStep_max values Value.undefined m (by simp) h
  refine ⟨?_, h3⟩
  rcases h1 with h1 | h1
  · exact Value.noConfusion h1
  · exact h1

/-! ## The radius scale (C4, C5) -/

/-- Every node's radius is the radius scale of the call applied to its value. -/
theorem radius_eq_scale (sqrt : ℚ → ℚ) (data : ChartData) (dataSelect : String) (n : Node)
    (hn : n ∈ chartNodes sqrt data dataSelect) :
    n.radius = scaleSqrt sqrt (chartMaxValue sqrt data dataSelect) (rangeMin data)
      (rangeMax data dataSelect) n.value := by
  cases data with
  | country cs =>
    simp only [chartNodes, buildNodes, List.mem_map] at hn
    obtain ⟨d, -, rfl⟩ := hn
    simp only [chartMaxValue, rangeMin, rangeMax, countrySettings]
    split <;> rfl
  | region rs =>
    simp only [chartNodes, buildNodes, List.mem_map] at hn
    obtain ⟨d, -, rfl⟩ := hn
    rfl

/-- The variable `maxValue` is `d3.max` over the values of the nodes. -/
theorem chartMaxValue_eq (sqrt : ℚ → ℚ) (data : ChartData) (dataSelect : String) :
    chartMaxValue sqrt data dataSelect =
      d3max ((chartNodes sqrt data dataSelect).map Node.value) := by
  cases data with
  | country cs =>
    simp only [chartMaxValue, chartNodes, buildNodes, countrySettings, List.map_map]
    split <;> rfl
  | region rs =>
    simp only [chartMaxValue, chartNodes, buildNodes, regionSettings, List.map_map]
    rfl

/-- The loop of `d3.max` over zeros keeps a maximum that is `undefined` or `0`
and ends on `0` once it has seen one. -/
theorem foldl_d3maxStep_zero (values : List Value) (h : ∀ v ∈ values, v = Value.num 0) :
    values.foldl d3maxStep (Value.num 0) = Value.num 0 ∧
      (values ≠ [] → values.foldl d3maxStep Value.undefined = Value.num 0) := by
  induction values with
  | nil => simp
  | cons v rest ih =>
    have hv : v = Value.num 0 := h v (List.mem_cons_self _ _)
    have hrest := ih (fun w hw => h w (List.mem_cons_of_mem _ hw))
    subst hv
    simp [d3maxStep, hrest.1]

/-- The call `d3.max` on a non-empty list of zeros is `0`. -/
theorem d3max_zero (values : List Value) (h : ∀ v ∈ values, v = Value.num 0)
    (hne : values ≠ []) : d3max values = Value.num 0 :=
  (foldl_d3maxStep_zero values h).2 hne

/-- A scale whose domain is collapsed to `[0, 0]` sends `0` to the middle of
its range. -/
theorem scaleSqrt_collapsed (sqrt : ℚ → ℚ) (r0 r1 : ℚ) :
    scaleSqrt sqrt (Value.num 0) r0 r1 (Value.num 0) = Value.num ((r0 + r1) / 2) := by
  simp only [scaleSqrt, bimap, normalize, interpolateNumber, lt_self_iff_false, if_false,
    sub_self, ne_eq, not_true_eq_false]
  congr 1
  ring

/-- A scale whose domain is `[0, m]` with distinct transformed bounds sends `0`
to the lower and `m` to the upper bound of its range. -/
theorem scaleSqrt_bounds (sqrt : ℚ → ℚ) (m r0 r1 : ℚ) (hpos : 0 < m)
    (hsqrt : sqrt m ≠ sqrt 0) :
    scaleSqrt sqrt (Value.num m) r0 r1 (Value.num 0) = Value.num r0 ∧
      scaleSqrt sqrt (Value.num m) r0 r1 (Value.num m) = Value.num r1 := by
  have h0 : transformSqrt sqrt 0 = sqrt 0 := by simp [transformSqrt]
  have hm : transformSqrt sqrt m = sqrt m := by simp [transformSqrt, not_lt.mpr hpos.le]
  have hne : sqrt m - sqrt 0 ≠ 0 := sub_ne_zero.mpr hsqrt
  have hne2 : sqrt 0 - sqrt m ≠ 0 := sub_ne_zero.mpr (Ne.symm hsqrt)
  simp only [scaleSqrt, h0, hm, bimap, normalize, interpolateNumber]
  constructor <;> split <;> simp [hne, hne2]

/-- C4, as stated, fails: a dataset of one country with population `0` has all
its values `0`, and the scale of country mode with `population` gives its node
the radius `52.5`, not the minimum `5` of the range. -/
theorem zero_metric_radius_not_minimum :
    (chartNodes integerSqrt (ChartData.country [populationRecord "AAA" 0]) "population").map
        (fun n => (n.value, n.radius)) = [(Value.num 0, Value.num (105 / 2))] ∧
      Value.num (105 / 2) ≠ Value.num (rangeMin (ChartData.country [populationRecord "AAA" 0])) := by
  constructor
  · simp [chartNodes, buildNodes, countrySettings, populationRecord, populationValue,
      Country.get, d3max, d3maxStep, scaleSqrt, bimap, normalize, interpolateNumber]
    norm_num
  · simp [rangeMin]
    norm_num

/-- C4, amended: when the value of every node is `0`, the radius scale gives
every node the midpoint of the output range of its case: `52.5` of `[5, 100]`
for country mode with `population`, `22.5` of `[5, 40]` for country mode with
another metric, `70` of `[40, 100]` for region mode. -/
theorem zero_metric_radius_midpoint (sqrt : ℚ → ℚ) (data : ChartData) (dataSelect : String)
    (hzero : ∀ n ∈ chartNodes sqrt data dataSelect, n.value = Value.num 0) :
    ∀ n ∈ chartNodes sqrt data dataSelect,
      n.radius = Value.num ((rangeMin data + rangeMax data dataSelect) / 2) ∧
      (rangeMin data + rangeMax data dataSelect) / 2 =
        match data with
        | ChartData.country _ => if dataSelect = "population" then 105 / 2 else 45 / 2
        | ChartData.region _ => 70 := by
  intro n hn
  have hmax : chartMaxValue sqrt data dataSelect = Value.num 0 := by
    rw [chartMaxValue_eq]
    apply d3max_zero
    · intro v hv
      obtain ⟨m, hm, rfl⟩ := List.mem_map.mp hv
      exact hzero m hm
    · intro hnil
      have := List.map_eq_nil_iff.mp hnil
      rw [this] at hn
      simp at hn
  refine ⟨?_, ?_⟩
  · rw [radius_eq_scale sqrt data dataSelect n hn, hmax, hzero n hn, scaleSqrt_collapsed]
  · cases data with
    | country cs =>
      simp only [rangeMin, rangeMax]
      split <;> norm_num
    | region rs =>
      simp only [rangeMin, rangeMax]
      norm_num

/-- The amended C4 on a region dataset whose two summaries count no timezone. -/
theorem zero_metric_radius_midpoint_witness :
    (∀ n ∈ chartNodes integerSqrt
        (ChartData.region [{ region := "X", countries := 1, timezones := 0 },
          { region := "Y", countries := 2, timezones := 0 }]) "uniqueTimezones",
        n.value = Value.num 0) ∧
      ∀ n ∈ chartNodes integerSqrt
        (ChartData.region [{ region := "X", countries := 1, timezones := 0 },
          { region := "Y", countries := 2, timezones := 0 }]) "uniqueTimezones",
        n.radius = Value.num ((40 + 100) / 2) :=
  have h : ∀ n ∈ chartNodes integerSqrt
      (ChartData.region [{ region := "X", countries := 1, timezones := 0 },
        { region := "Y", countries := 2, timezones := 0 }]) "uniqueTimezones",
      n.value = Value.num 0 := by
    simp [chartNodes, buildNodes, regionSettings]
  ⟨h, fun n hn => (zero_metric_radius_midpoint integerSqrt _ "uniqueTimezones" h n hn).1⟩

/-- C5: when the maximum `m` of the metric over the dataset is positive, the
square-root scale of `updateChart` over the domain `[0, m]` gives a record of
value `0` the lower bound and a record of value `m` the upper bound of the
output range of the case: `[5, 100]` for country mode with `population`,
`[5, 40]` for country mode with another metric, `[40, 100]` for region mode.
The square root enters through `sqrt m ≠ sqrt 0` only. -/
theorem radius_at_domain_bounds (sqrt : ℚ → ℚ) (data : ChartData) (dataSelect : String)
    (m : ℚ) (hmax : chartMaxValue sqrt data dataSelect = Value.num m) (hpos : 0 < m)
    (hsqrt : sqrt m ≠ sqrt 0) :
    (∀ n ∈ chartNodes sqrt data dataSelect,
      (n.value = Value.num 0 → n.radius = Value.num (rangeMin data)) ∧
      (n.value = Value.num m → n.radius = Value.num (rangeMax data dataSelect))) ∧
    (rangeMin data, rangeMax data dataSelect) =
      match data with
      | ChartData.country _ => if dataSelect = "population" then (5, 100) else (5, 40)
      | ChartData.region _ => (40, 100) := by
  constructor
  · intro n hn
    have hr := radius_eq_scale sqrt data dataSelect n hn
    rw [hmax] at hr
    have hb := scaleSqrt_bounds sqrt m (rangeMin data) (rangeMax data dataSelect) hpos hsqrt
    constructor
    · intro hv
      rw [hr, hv, hb.1]
    · intro hv
      rw [hr, hv, hb.2]
  · cases data with
    | country cs =>
      simp only [rangeMin, rangeMax]
      split <;> rfl
    | region rs => rfl

/-- C5 on the dataset of the specification: with maximum population 1,000,000
the country of population `0` gets radius `5` and the country of population
1,000,000 gets radius `100`. -/
theorem radius_at_domain_bounds_witness :
    chartMaxValue integerSqrt
        (ChartData.country [populationRecord "AAA" 0, populationRecord "BBB" 1000000])
        "population" = Value.num 1000000 ∧
      (chartNodes integerSqrt
        (ChartData.country [populationRecord "AAA" 0, populationRecord "BBB" 1000000])
        "population").map (fun n => (n.name, n.value)) =
        [(some "AAA", Value.num 0), (some "BBB", Value.num 1000000)] ∧
      ∀ n ∈ chartNodes integerSqrt
        (ChartData.country [populationRecord "AAA" 0, populationRecord "BBB" 1000000])
        "population",
        (n.value = Value.num 0 → n.radius = Value.num 5) ∧
        (n.value = Value.num 1000000 → n.radius = Value.num 100) :=
  have hmax : chartMaxValue integerSqrt
      (ChartData.country [populationRecord "AAA" 0, populationRecord "BBB" 1000000])
      "population" = Value.num 1000000 := by
    simp [chartMaxValue, countrySettings, populationRecord, populationValue, Country.get,
      d3max, d3maxStep]
  have hsqrt : integerSqrt 1000000 ≠ integerSqrt 0 := by
    have h : Nat.sqrt 1000000 = 1000 := Nat.sqrt_eq 1000
    simp [integerSqrt, h]
  ⟨hmax, by simp [chartNodes, buildNodes, countrySettings, populationRecord, populationValue,
      Country.get],
    (radius_at_domain_bounds integerSqrt _ "population" 1000000 hmax (by norm_num) hsqrt).1⟩

/-! ## The table (C3) -/

/-- Inserting into a sorted list keeps it sorted when the relation is total and
transitive between the new element and the elements of the list. -/
theorem sorted_orderedInsert_of {α : Type} (r : α → α → Prop) [DecidableRel r] (a : α)
    (s : List α) (hs : s.Sorted r) (total : ∀ b ∈ s, r a b ∨ r b a)
    (trans : ∀ b ∈ s, ∀ c ∈ s, r a b → r b c → r a c) :
    (s.orderedInsert r a).Sorted r := by
  induction s with
  | nil => simp
  | cons b s ih =>
    by_cases h : r a b
    · rw [List.orderedInsert, if_pos h, List.sorted_cons]
      refine ⟨?_, hs⟩
      intro c hc
      rcases List.mem_cons.mp hc with rfl | hc
      · exact h
      · exact trans b (List.mem_cons_self _ _) c (List.mem_cons_of_mem _ hc) h
          (List.rel_of_sorted_cons hs c hc)
    · rw [List.orderedInsert, if_neg h, List.sorted_cons]
      constructor
      · intro c hc
        rcases (List.mem_orderedInsert r).mp hc with rfl | hc
        · exact (total b (List.mem_cons_self _ _)).resolve_left h
        · exact List.rel_of_sorted_cons hs c hc
      · exact ih hs.of_cons (fun c hc => total c (List.mem_cons_of_mem _ hc))
          (fun c hc e he => trans c (List.mem_cons_of_mem _ hc) e (List.mem_cons_of_mem _ he))

/-- Insertion sort sorts a list on whose elements the relation is total and
transitive. -/
theorem sorted_insertionSort_of {α : Type} (r : α → α → Prop) [DecidableRel r] (l : List α)
    (total : ∀ a ∈ l, ∀ b ∈ l, r a b ∨ r b a)
    (trans : ∀ a ∈ l, ∀ b ∈ l, ∀ c ∈ l, r a b → r b c → r a c) :
    (l.insertionSort r).Sorted r := by
  induction l with
  | nil => simp
  | cons a l ih =>
    rw [List.insertionSort]
    have hmem : ∀ b, b ∈ l.insertionSort r → b ∈ l := fun b hb =>
      (List.perm_insertionSort r l).mem_iff.mp hb
    apply sorted_orderedInsert_of
    · exact ih (fun b hb c hc => total b (List.mem_cons_of_mem _ hb) c (List.mem_cons_of_mem _ hc))
        (fun b hb c hc e he => trans b (List.mem_cons_of_mem _ hb) c (List.mem_cons_of_mem _ hc)
          e (List.mem_cons_of_mem _ he))
    · intro b hb
      exact total a (List.mem_cons_self _ _) b (List.mem_cons_of_mem _ (hmem b hb))
    · intro b hb c hc
      exact trans a (List.mem_cons_self _ _) b (List.mem_cons_of_mem _ (hmem b hb)) c
        (List.mem_cons_of_mem _ (hmem c hc))

/-- On nodes whose values are numbers the order of the sort is `≥` on values. -/
theorem sortsBefore_num (a b : Node) (x y : ℚ) (ha : a.value = Value.num x)
    (hb : b.value = Value.num y) : sortsBefore a b ↔ y ≤ x := by
  simp [sortsBefore, comparator, ha, hb, Value.sub]

/-- The loop of rows appends one row per node, in order, when every node renders. -/
theorem appendRows_ok (sortType : String) (l : List Node)
    (h : ∀ d ∈ l, ∃ row, renderRow sortType d = Except.ok row) :
    (appendRows sortType l).2 = none ∧
      List.Forall₂ (fun d row => renderRow sortType d = Except.ok row) l
        (appendRows sortType l).1 := by
  induction l with
  | nil => simp [appendRows]
  | cons d rest ih =>
    obtain ⟨row, hrow⟩ := h d (List.mem_cons_self _ _)
    have hrest := ih (fun e he => h e (List.mem_cons_of_mem _ he))
    simp only [appendRows, hrow]
    exact ⟨hrest.1, List.Forall₂.cons hrow hrest.2⟩

/-- A node renders in region mode, and in country mode when its info bag
carries the three arrays. -/
theorem renderRow_ok (sortType : String) (d : Node)
    (h : sortType = "country" → d.hasArrays) : ∃ row, renderRow sortType d = Except.ok row := by
  unfold renderRow
  by_cases hs : sortType = "country"
  · have ha := h hs
    unfold Node.hasArrays at ha
    rw [if_pos hs]
    cases hinfo : d.additionalInfo with
    | region c t => rw [hinfo] at ha; exact ha.elim
    | country realName capital region population nativeName borders languages timezones =>
      rw [hinfo] at ha
      cases borders <;> cases languages <;> cases timezones <;> simp at ha ⊢
  · rw [if_neg hs]
    cases d.additionalInfo <;> simp

/-- The sort returns a rearrangement of the array, whatever the values. -/
theorem sortNodes_perm (engine : SortEngine) (data : List Node) :
    (sortNodes engine data).Perm data := by
  unfold sortNodes
  split
  · exact List.perm_insertionSort _ _
  · exact engine.perm data

/-- On values that are numbers the sort leaves the array in the order of the
compare function. -/
theorem sortNodes_sorted (engine : SortEngine) (data : List Node)
    (hnum : ∀ d ∈ data, ∃ q, d.value = Value.num q) :
    (sortNodes engine data).Sorted sortsBefore := by
  have hall : data.all (fun d => d.value.isNumber) = true := by
    rw [List.all_eq_true]
    intro d hd
    obtain ⟨q, hq⟩ := hnum d hd
    simp [hq, Value.isNumber]
  unfold sortNodes
  rw [if_pos hall]
  apply sorted_insertionSort_of
  · intro a ha b hb
    obtain ⟨x, hx⟩ := hnum a ha
    obtain ⟨y, hy⟩ := hnum b hb
    rw [sortsBefore_num a b x y hx hy, sortsBefore_num b a y x hy hx]
    exact le_total y x
  · intro a ha b hb c hc
    obtain ⟨x, hx⟩ := hnum a ha
    obtain ⟨y, hy⟩ := hnum b hb
    obtain ⟨z, hz⟩ := hnum c hc
    rw [sortsBefore_num a b x y hx hy, sortsBefore_num b c y z hy hz,
      sortsBefore_num a c x z hx hz]
    exact fun h1 h2 => le_trans h2 h1

/-- In a list of two or more nodes that is descending in value every value is
a number. -/
theorem num_of_pairwise_valueGe (l : List Node) (hp : l.Pairwise Node.valueGe)
    (hlen : 2 ≤ l.length) : ∀ d ∈ l, ∃ q, d.value = Value.num q := by
  have hleft : ∀ a b : Node, Node.valueGe a b → ∃ q, a.value = Value.num q := by
    intro a b hab
    unfold Node.valueGe at hab
    revert hab
    cases a.value <;> cases b.value <;> simp
  have hright : ∀ a b : Node, Node.valueGe a b → ∃ q, b.value = Value.num q := by
    intro a b hab
    unfold Node.valueGe at hab
    revert hab
    cases a.value <;> cases b.value <;> simp
  match l, hp, hlen with
  | x :: y :: rest, hp, _ =>
    intro d hd
    have hx : ∀ e ∈ y :: rest, Node.valueGe x e := fun e he => List.rel_of_pairwise_cons hp he
    rcases List.mem_cons.mp hd with rfl | hd
    · exact hleft d y (hx y (List.mem_cons_self _ _))
    · exact hright x d (hx d hd)

/-- C3, as stated, fails. The nodes built in country mode with `population`
from a record without population followed by a record of population `5` have
the values `NaN` and `5`: whatever order the engine leaves them in, it is not
descending (`NaN >= 5` is false, and so is `5 >= NaN`). A node whose info bag
lacks `borders` stops the rendering before its row: of the one node of
`recordWithoutArrays` no row is rendered. -/
theorem nan_value_not_descending :
    (chartNodes integerSqrt
        (ChartData.country [recordWithoutPopulation, populationRecord "BBB" 5])
        "population").map Node.value = [Value.nan, Value.num 5] ∧
      (¬ ∃ engine : SortEngine, (updateTable engine (chartNodes integerSqrt
        (ChartData.country [recordWithoutPopulation, populationRecord "BBB" 5]) "population")
        "country").sorted.Pairwise Node.valueGe) ∧
      (chartNodes integerSqrt (ChartData.country [recordWithoutArrays]) "population").length = 1 ∧
      (updateTable stableEngine (chartNodes integerSqrt (ChartData.country [recordWithoutArrays])
        "population") "country").rows.length = 0 := by
  have hnodes : (chartNodes integerSqrt
      (ChartData.country [recordWithoutPopulation, populationRecord "BBB" 5])
      "population").map Node.value = [Value.nan, Value.num 5] := by
    simp [chartNodes, buildNodes, countrySettings, populationValue, Country.get,
      recordWithoutPopulation, populationRecord]
  refine ⟨hnodes, ?_, by rfl, by rfl⟩
  rintro ⟨engine, hp⟩
  have hperm := sortNodes_perm engine (chartNodes integerSqrt
    (ChartData.country [recordWithoutPopulation, populationRecord "BBB" 5]) "population")
  have hlen : 2 ≤ (sortNodes engine (chartNodes integerSqrt
      (ChartData.country [recordWithoutPopulation, populationRecord "BBB" 5])
      "population")).length := by
    rw [hperm.length_eq]
    simp [chartNodes, buildNodes]
  have hall := num_of_pairwise_valueGe _ hp hlen
  have hvals : ∀ v ∈ (chartNodes integerSqrt
      (ChartData.country [recordWithoutPopulation, populationRecord "BBB" 5])
      "population").map Node.value, ∃ q, v = Value.num q := by
    intro v hv
    obtain ⟨d, hd, rfl⟩ := List.mem_map.mp hv
    exact hall d (hperm.mem_iff.mpr hd)
  rw [hnodes] at hvals
  obtain ⟨q, hq⟩ := hvals Value.nan (List.mem_cons_self _ _)
  exact Value.noConfusion hq

/-- C3, amended: for every list of nodes passed to `updateTable` the array after
the sort is a rearrangement of the nodes. When, in country mode, every info bag
carries the arrays `borders`, `languages` and `timezones`, `updateTable` throws
nothing and renders as many rows as there are nodes, the rows of the rearranged
nodes, one per node in order. When every value is a number the rearranged
nodes, and so the rows, are in descending order of value. -/
theorem updateTable_rows_sorted (engine : SortEngine) (data : List Node) (sortType : String) :
    (updateTable engine data sortType).sorted.Perm data ∧
      ((sortType = "country" → ∀ d ∈ data, d.hasArrays) →
        (updateTable engine data sortType).error = none ∧
        (updateTable engine data sortType).rows.length = data.length ∧
        List.Forall₂ (fun d row => renderRow sortType d = Except.ok row)
          (updateTable engine data sortType).sorted (updateTable engine data sortType).rows) ∧
      ((∀ d ∈ data, ∃ q, d.value = Value.num q) →
        (updateTable engine data sortType).sorted.Pairwise Node.valueGe) := by
  have hperm : (sortNodes engine data).Perm data := sortNodes_perm engine data
  refine ⟨hperm, ?_, ?_⟩
  · intro harrays
    have hrender : ∀ d ∈ sortNodes engine data, ∃ row, renderRow sortType d = Except.ok row :=
      fun d hd => renderRow_ok sortType d (fun hs => harrays hs d (hperm.mem_iff.mp hd))
    have hrows := appendRows_ok sortType (sortNodes engine data) hrender
    refine ⟨hrows.1, ?_, hrows.2⟩
    show (appendRows sortType (sortNodes engine data)).1.length = data.length
    rw [← hrows.2.length_eq, hperm.length_eq]
  · intro hnum
    show (sortNodes engine data).Pairwise Node.valueGe
    have hsorted := sortNodes_sorted engine data hnum
    have hmem : ∀ a ∈ sortNodes engine data, ∀ b ∈ sortNodes engine data,
        sortsBefore a b → Node.valueGe a b := by
      intro a ha b hb hab
      obtain ⟨x, hx⟩ := hnum a (hperm.mem_iff.mp ha)
      obtain ⟨y, hy⟩ := hnum b (hperm.mem_iff.mp hb)
      rw [sortsBefore_num a b x y hx hy] at hab
      simp [Node.valueGe, hx, hy, hab]
    exact List.Pairwise.imp_of_mem (fun {a b} ha hb hab => hmem a ha b hb hab) hsorted

/-- The amended C3 on the nodes of the specification, built in country mode
with `population` from the records A, B and C of populations 10, 30 and 20: the
three rows render in the order B, C, A, and the sorted nodes are descending. -/
theorem updateTable_rows_sorted_witness :
    (chartNodes integerSqrt (ChartData.country [populationRecord "A" 10,
        populationRecord "B" 30, populationRecord "C" 20]) "population").map
        (fun n => (n.name, n.value)) =
        [(some "A", Value.num 10), (some "B", Value.num 30), (some "C", Value.num 20)] ∧
      (updateTable stableEngine (chartNodes integerSqrt (ChartData.country [populationRecord "A" 10,
        populationRecord "B" 30, populationRecord "C" 20]) "population")
        "country").rows.map List.head? =
        [some (Cell.text "B"), some (Cell.text "C"), some (Cell.text "A")] ∧
      (updateTable stableEngine (chartNodes integerSqrt (ChartData.country [populationRecord "A" 10,
        populationRecord "B" 30, populationRecord "C" 20]) "population")
        "country").rows.length = 3 ∧
      (updateTable stableEngine (chartNodes integerSqrt (ChartData.country [populationRecord "A" 10,
        populationRecord "B" 30, populationRecord "C" 20]) "population")
        "country").sorted.Pairwise Node.valueGe :=
  ⟨by simp [chartNodes, buildNodes, countrySettings, populationValue, Country.get,
      populationRecord],
    by simp [updateTable, sortNodes, Value.isNumber, chartNodes, buildNodes, countrySettings,
      populationValue, Country.get, populationRecord, List.insertionSort, List.orderedInsert,
      sortsBefore, comparator, Value.sub, appendRows, renderRow, countryInfo, Cell.ofString],
    ((updateTable_rows_sorted stableEngine _ "country").2.1
      (fun _ => by simp [chartNodes, buildNodes, countrySettings, countryInfo,
        populationRecord, Node.hasArrays])).2.1,
    (updateTable_rows_sorted stableEngine _ "country").2.2
      (by simp [chartNodes, buildNodes, countrySettings, populationValue, Country.get,
        populationRecord])⟩

/-! ## Records that lack a field (C8) -/

/-- C8 at a failing input: on the single record `recordWithoutArrays`, which
has a region and no `timezones`, `borders` or `languages`, the region
aggregation of `updateData` ends in a `TypeError` and leaves the region cache
empty, and in country mode the node is built with value `0` for `borders` but
`updateTable` ends in a `TypeError` before rendering a row. -/
theorem missing_array_field_throws :
    updateData integerSqrt stableEngine "countriesInRegion" false
        { countryData := some [recordWithoutArrays], regionData := none } =
        { state := { countryData := some [recordWithoutArrays], regionData := none },
          chart := none, pending := none,
          error := some "TypeError: country.timezones is undefined" } ∧
      (updateData integerSqrt stableEngine "borders" true
        { countryData := some [recordWithoutArrays], regionData := none }).error =
        some "TypeError: d.additionalInfo.borders is undefined" ∧
      (chartNodes integerSqrt (ChartData.country [recordWithoutArrays]) "borders").map
        Node.value = [Value.num 0] ∧
      (updateTable stableEngine (chartNodes integerSqrt (ChartData.country [recordWithoutArrays]) "borders")
        "country").rows = [] := by
  refine ⟨by rfl, by rfl, ?_, by rfl⟩
  simp [chartNodes, buildNodes, countrySettings, arrayLengthValue, Country.get,
    recordWithoutArrays, Field.ofStrings]

/-- A record without a region, or with the empty region, is skipped by the loop
body, whatever its other fields. -/
theorem addCountry_without_region (regions : Dict RegionEntry) (c : Country)
    (h : c.regionKey = none) : addCountry regions c = Except.ok regions := by
  unfold Country.regionKey at h
  unfold addCountry
  cases hr : c.region with
  | none => rfl
  | some x =>
    rw [hr] at h
    by_cases hx : x = ""
    · simp [hx]
    · simp [hx] at h

/-! ## Sets of strings in insertion order -/

/-- Membership after adding a list of strings to a set. -/
theorem mem_foldl_setAdd (l s : List String) (x : String) :
    x ∈ l.foldl setAdd s ↔ x ∈ s ∨ x ∈ l := by
  induction l generalizing s with
  | nil => simp
  | cons y l ih =>
    rw [List.foldl_cons, ih]
    unfold setAdd
    by_cases hy : y ∈ s
    · rw [if_pos hy]
      constructor
      · rintro (h | h)
        · exact Or.inl h
        · exact Or.inr (List.mem_cons_of_mem _ h)
      · rintro (h | h)
        · exact Or.inl h
        · rcases List.mem_cons.mp h with rfl | h
          · exact Or.inl hy
          · exact Or.inr h
    · rw [if_neg hy]
      simp only [List.mem_append, List.mem_singleton, List.mem_cons]
      tauto

/-- Adding strings to a set without repetition leaves it without repetition. -/
theorem nodup_foldl_setAdd (l s : List String) (hs : s.Nodup) : (l.foldl setAdd s).Nodup := by
  induction l generalizing s with
  | nil => exact hs
  | cons y l ih =>
    rw [List.foldl_cons]
    apply ih
    unfold setAdd
    by_cases hy : y ∈ s
    · rw [if_pos hy]; exact hs
    · rw [if_neg hy]
      exact List.Nodup.append hs (List.nodup_singleton y) (by simpa using hy)

/-- The elements of `firstOccurrences l` are those of `l`. -/
theorem mem_firstOccurrences (l : List String) (x : String) :
    x ∈ firstOccurrences l ↔ x ∈ l := by
  simp [firstOccurrences, mem_foldl_setAdd]

/-- No string occurs twice in `firstOccurrences l`. -/
theorem nodup_firstOccurrences (l : List String) : (firstOccurrences l).Nodup :=
  nodup_foldl_setAdd l [] List.nodup_nil

/-- The list `firstOccurrences l` has as many elements as `l` has distinct ones. -/
theorem length_firstOccurrences (l : List String) :
    (firstOccurrences l).length = l.toFinset.card := by
  rw [← List.toFinset_card_of_nodup (nodup_firstOccurrences l)]
  congr 1
  ext x
  simp [mem_firstOccurrences]

/-- Appending one string to the scanned list adds it to the set. -/
theorem firstOccurrences_concat (l : List String) (x : String) :
    firstOccurrences (l ++ [x]) = setAdd (firstOccurrences l) x := by
  simp [firstOccurrences, List.foldl_append]

/-- Appending a list to the scanned list adds its strings to the set. -/
theorem firstOccurrences_append (l l2 : List String) :
    firstOccurrences (l ++ l2) = l2.foldl setAdd (firstOccurrences l) := by
  simp [firstOccurrences, List.foldl_append]

/-- The first element with a property is the same in a set grown from `s` by
`l` as in `s` followed by `l`. -/
theorem find_foldl_setAdd (p : String → Bool) (l s : List String) :
    (l.foldl setAdd s).find? p = (s.find? p).or (l.find? p) := by
  induction l generalizing s with
  | nil => simp
  | cons y l ih =>
    rw [List.foldl_cons, ih]
    unfold setAdd
    by_cases hy : y ∈ s
    · rw [if_pos hy]
      cases hs : s.find? p with
      | some z => simp
      | none =>
        have hpy : ¬ p y = true := (List.find?_eq_none.mp hs) y hy
        simp [List.find?_cons, hpy]
    · rw [if_neg hy, List.find?_append]
      cases hs : s.find? p with
      | some z => simp
      | none =>
        by_cases hpy : p y = true <;> simp [List.find?_cons, hpy]

/-- The first element with a property is the same in `firstOccurrences l` as in `l`. -/
theorem find_firstOccurrences (p : String → Bool) (l : List String) :
    (firstOccurrences l).find? p = l.find? p := by
  simp [firstOccurrences, find_foldl_setAdd]

/-- For two properties that exclude each other, the first element with the one
comes before the first element with the other exactly when the first element
with either has the one. -/
theorem findIdx_lt_iff {α : Type} (pa pb : α → Bool) (l : List α)
    (hdisj : ∀ x, pa x = true → pb x = true → False) :
    l.findIdx pa < l.findIdx pb ↔
      ∃ x, l.find? (fun x => pa x || pb x) = some x ∧ pa x = true := by
  induction l with
  | nil => simp
  | cons y l ih =>
    rw [List.findIdx_cons, List.findIdx_cons, List.find?_cons]
    by_cases ha : pa y = true
    · have hb : pb y = false := by
        cases h : pb y
        · rfl
        · exact (hdisj y ha h).elim
      simp [ha, hb]
    · have ha2 : pa y = false := by simpa using ha
      by_cases hb : pb y = true
      · simp [ha2, hb]
      · have hb2 : pb y = false := by simpa using hb
        simp [ha2, hb2, ih]

/-! ## The loop over the countries -/

/-- Reading a key in a dictionary listed by its keys. -/
theorem lookup_map_key {α : Type} (f : String → α) (keys : List String) (k : String) :
    (keys.map (fun r => (r, f r))).lookup k = if k ∈ keys then some (f k) else none := by
  induction keys with
  | nil => simp
  | cons r keys ih =>
    simp only [List.map_cons, List.lookup_cons, List.mem_cons]
    by_cases h : k = r
    · subst h; simp
    · have h2 : (k == r) = false := by simpa using h
      simp [h2, h, ih]

/-- A region key of a dataset is a non-empty string carried by a record. -/
theorem mem_regionKeys (cs : List Country) (r : String) :
    r ∈ cs.filterMap Country.regionKey ↔ r ≠ "" ∧ ∃ c ∈ cs, c.region = some r := by
  simp only [List.mem_filterMap, Country.regionKey]
  constructor
  · rintro ⟨c, hc, h⟩
    cases hr : c.region with
    | none => simp [hr] at h
    | some x =>
      simp only [hr] at h
      by_cases hx : x = ""
      · simp [hx] at h
      · simp only [hx, if_false, Option.some.injEq] at h
        subst h
        exact ⟨hx, c, hc, hr⟩
  · rintro ⟨hne, c, hc, hr⟩
    exact ⟨c, hc, by simp [hr, hne]⟩

/-- The region key of a record, read off its region. -/
theorem regionKey_eq_some (c : Country) (r : String) :
    c.regionKey = some r ↔ c.region = some r ∧ r ≠ "" := by
  unfold Country.regionKey
  cases hr : c.region with
  | none => simp
  | some x =>
    by_cases hx : x = ""
    · subst hx
      simp
      intro h1
      exact h1.symm
    · simp only [hx, if_false, Option.some.injEq]
      constructor
      · rintro rfl; exact ⟨rfl, hx⟩
      · rintro ⟨h, -⟩; exact h

/-- A record that does not carry `r` changes nothing for the region `r`. -/
theorem expectedEntry_concat_of_ne (p : List Country) (c : Country) (r : String)
    (h : c.region ≠ some r) : expectedEntry (p ++ [c]) r = expectedEntry p r := by
  simp [expectedEntry, memberTimezones, members, List.filter_append, h]

/-- A record that carries `r` adds its name and its timezones to the region `r`. -/
theorem expectedEntry_concat_of_eq (p : List Country) (c : Country) (r : String)
    (tzs : List String) (h : c.region = some r) (htz : c.timezones = some tzs) :
    expectedEntry (p ++ [c]) r =
      { countries := (expectedEntry p r).countries ++ [c.name],
        timezones := tzs.foldl setAdd (expectedEntry p r).timezones } := by
  simp [expectedEntry, memberTimezones, members, List.filter_append, h, htz,
    firstOccurrences_append]

/-- One turn of the loop on a record it accepts takes the expected dictionary
of the records scanned so far to the expected dictionary with the record added. -/
theorem addCountry_expected (p : List Country) (c : Country) (hc : c.aggregates) :
    addCountry (expectedRegions p) c = Except.ok (expectedRegions (p ++ [c])) := by
  cases hk : c.regionKey with
  | none =>
    have hsame : expectedRegions (p ++ [c]) = expectedRegions p := by
      unfold expectedRegions
      rw [List.filterMap_append]
      simp only [List.filterMap_cons, hk, List.filterMap_nil, List.append_nil]
      apply List.map_congr_left
      intro r hr
      rw [mem_firstOccurrences, mem_regionKeys] at hr
      rw [expectedEntry_concat_of_ne]
      intro hreg
      have := (regionKey_eq_some c r).mpr ⟨hreg, hr.1⟩
      rw [hk] at this
      exact Option.noConfusion this
    rw [hsame]
    unfold addCountry
    unfold Country.regionKey at hk
    cases hr : c.region with
    | none => rfl
    | some x =>
      simp only [hr] at hk
      by_cases hx : x = ""
      · simp [hx]
      · simp [hx] at hk
  | some r =>
    obtain ⟨hreg, hne⟩ := (regionKey_eq_some c r).mp hk
    obtain ⟨hproto, htz⟩ := hc r hk
    obtain ⟨tzs, htzs⟩ := Option.ne_none_iff_exists'.mp htz
    have hkeys : firstOccurrences ((p ++ [c]).filterMap Country.regionKey) =
        setAdd (firstOccurrences (p.filterMap Country.regionKey)) r := by
      rw [List.filterMap_append]
      simp only [List.filterMap_cons, hk, List.filterMap_nil]
      exact firstOccurrences_concat _ _
    have hnp : r ≠ "__proto__" := by
      intro h
      apply hproto
      rw [h]
      decide
    unfold addCountry
    simp only [hreg, hne, if_false, htzs]
    by_cases hmem : r ∈ firstOccurrences (p.filterMap Country.regionKey)
    · have hget : (expectedRegions p).get r = Lookup.own (expectedEntry p r) := by
        simp [Dict.get, expectedRegions, lookup_map_key, hmem]
      simp only [hget]
      congr 1
      unfold expectedRegions
      rw [hkeys]
      simp only [setAdd, hmem, if_true, Dict.modify, List.map_map]
      apply List.map_congr_left
      intro k _
      by_cases hkr : k = r
      · subst hkr
        simp [expectedEntry_concat_of_eq p c k tzs hreg htzs]
      · have : c.region ≠ some k := by
          rw [hreg]
          intro h
          exact hkr (Option.some.inj h).symm
        simp [hkr, expectedEntry_concat_of_ne p c k this]
    · have hget : (expectedRegions p).get r = Lookup.undefined := by
        simp [Dict.get, expectedRegions, lookup_map_key, hmem, hproto]
      have hany : (expectedRegions p).any (fun e => e.1 == r) = false := by
        rw [List.any_eq_false]
        intro e he h
        simp only [expectedRegions, List.mem_map] at he
        obtain ⟨k, hk2, rfl⟩ := he
        have : k = r := by simpa using h
        exact hmem (this ▸ hk2)
      let e0 : RegionEntry := { countries := [], timezones := [] }
      have hset : (expectedRegions p).set r e0 = expectedRegions p ++ [(r, e0)] := by
        simp [Dict.set, hnp, hany]
      have hget2 : (expectedRegions p ++ [(r, e0)]).get r = Lookup.own e0 := by
        have hl : (expectedRegions p).lookup r = none := by
          simp [expectedRegions, lookup_map_key, hmem]
        simp [Dict.get, List.lookup_append, hl]
      simp only [hget, hset, hget2]
      congr 1
      have hnil : members p r = [] := by
        simp only [members, List.filter_eq_nil_iff, decide_eq_true_eq]
        intro d hd hdr
        apply hmem
        rw [mem_firstOccurrences, mem_regionKeys]
        exact ⟨hne, d, hd, hdr⟩
      unfold expectedRegions
      rw [hkeys]
      simp only [setAdd, hmem, if_false, Dict.modify, List.map_append, List.map_map,
        List.map_cons, List.map_nil]
      congr 1
      · apply List.map_congr_left
        intro k hk2
        have hkr : k ≠ r := fun h => hmem (h ▸ hk2)
        have : c.region ≠ some k := by
          rw [hreg]
          intro h
          exact hkr (Option.some.inj h).symm
        simp [hkr, expectedEntry_concat_of_ne p c k this]
      · rw [expectedEntry_concat_of_eq p c r tzs hreg htzs]
        simp [expectedEntry, memberTimezones, hnil, firstOccurrences, e0]

/-- A turn of the loop that does not throw is a turn on a record the loop
accepts, when the records scanned before were accepted. -/
theorem aggregates_of_addCountry_ok (p : List Country) (c : Country)
    (regions1 : Dict RegionEntry) (hp : ∀ d ∈ p, d.aggregates)
    (h : addCountry (expectedRegions p) c = Except.ok regions1) : c.aggregates := by
  intro r hk
  obtain ⟨hreg, hne⟩ := (regionKey_eq_some c r).mp hk
  unfold addCountry at h
  simp only [hreg, hne, if_false] at h
  have hkeys : r ∈ firstOccurrences (p.filterMap Country.regionKey) → r ∉ objectPrototypeKeys := by
    intro hmem
    rw [mem_firstOccurrences, List.mem_filterMap] at hmem
    obtain ⟨d, hd, hdk⟩ := hmem
    exact (hp d hd r hdk).1
  have hproto : r ∉ objectPrototypeKeys := by
    intro hin
    have hmem : r ∉ firstOccurrences (p.filterMap Country.regionKey) := fun hm => hkeys hm hin
    have hget : (expectedRegions p).get r = Lookup.inherited := by
      simp [Dict.get, expectedRegions, lookup_map_key, hmem, hin]
    simp [hget] at h
  refine ⟨hproto, ?_⟩
  intro htz
  rw [htz] at h
  revert h
  split <;> simp

/-- The loop on records it accepts builds the expected dictionary. -/
theorem forEachCountry_expected (cs p : List Country) (hcs : ∀ c ∈ cs, c.aggregates) :
    forEachCountry cs (expectedRegions p) = Except.ok (expectedRegions (p ++ cs)) := by
  induction cs generalizing p with
  | nil => simp [forEachCountry]
  | cons c cs ih =>
    rw [forEachCountry, addCountry_expected p c (hcs c (List.mem_cons_self _ _))]
    simp only
    rw [ih (p ++ [c]) (fun d hd => hcs d (List.mem_cons_of_mem _ hd))]
    simp

/-- A loop that does not throw ran on records it accepts. -/
theorem aggregates_of_forEachCountry_ok (cs p : List Country) (out : Dict RegionEntry)
    (hp : ∀ d ∈ p, d.aggregates)
    (h : forEachCountry cs (expectedRegions p) = Except.ok out) : ∀ c ∈ cs, c.aggregates := by
  induction cs generalizing p with
  | nil => simp
  | cons c cs ih =>
    rw [forEachCountry] at h
    cases hstep : addCountry (expectedRegions p) c with
    | error e => simp [hstep] at h
    | ok regions1 =>
      have hc : c.aggregates := aggregates_of_addCountry_ok p c regions1 hp hstep
      rw [addCountry_expected p c hc] at h
      simp only at h
      have hrest := ih (p ++ [c])
        (fun d hd => by
          rcases List.mem_append.mp hd with hd | hd
          · exact hp d hd
          · rw [List.mem_singleton.mp hd]; exact hc) h
      intro d hd
      rcases List.mem_cons.mp hd with rfl | hd
      · exact hc
      · exact hrest d hd

/-! ## Enumeration order and the two later loops -/

/-- The array-index keys of an enumeration are in ascending order. -/
theorem sorted_indexKeys {α : Type} (l : Dict α) : (l.insertionSort indexLe).Sorted indexLe :=
  sorted_insertionSort_of indexLe l
    (fun a _ b _ => Nat.le_total (arrayIndexValue a.1) (arrayIndexValue b.1))
    (fun _ _ _ _ _ _ h1 h2 => Nat.le_trans h1 h2)

/-- The enumeration of an object lists each own property once. -/
theorem objectEntries_perm {α : Type} (o : Dict α) : (objectEntries o).Perm o := by
  unfold objectEntries
  exact ((List.perm_insertionSort indexLe _).append_right _).trans
    (List.filter_append_perm (fun e => isArrayIndex e.1) o)

/-- An object whose properties were created in the enumeration order of another
enumerates in that same order. -/
theorem objectEntries_idem {α : Type} (o : Dict α) :
    objectEntries (objectEntries o) = objectEntries o := by
  have hS : ∀ e ∈ (o.filter (fun e => isArrayIndex e.1)).insertionSort indexLe,
      isArrayIndex e.1 = true := by
    intro e he
    have := (List.perm_insertionSort indexLe _).mem_iff.mp he
    exact (List.mem_filter.mp this).2
  have hR : ∀ e ∈ o.filter (fun e => !isArrayIndex e.1), isArrayIndex e.1 = false := by
    intro e he
    simpa using (List.mem_filter.mp he).2
  have hSS : ((o.filter (fun e => isArrayIndex e.1)).insertionSort indexLe).filter
      (fun e => isArrayIndex e.1) = (o.filter (fun e => isArrayIndex e.1)).insertionSort indexLe :=
    List.filter_eq_self.mpr hS
  have hRS : (o.filter (fun e => !isArrayIndex e.1)).filter (fun e => isArrayIndex e.1) = [] :=
    List.filter_eq_nil_iff.mpr (fun e he => by simp [hR e he])
  have hSR : ((o.filter (fun e => isArrayIndex e.1)).insertionSort indexLe).filter
      (fun e => !isArrayIndex e.1) = [] :=
    List.filter_eq_nil_iff.mpr (fun e he => by simp [hS e he])
  have hRR : (o.filter (fun e => !isArrayIndex e.1)).filter (fun e => !isArrayIndex e.1) =
      o.filter (fun e => !isArrayIndex e.1) :=
    List.filter_eq_self.mpr (fun e he => by simp [hR e he])
  have hsort : ((o.filter (fun e => isArrayIndex e.1)).insertionSort indexLe).insertionSort
      indexLe = (o.filter (fun e => isArrayIndex e.1)).insertionSort indexLe :=
    List.Sorted.insertionSort_eq (sorted_indexKeys _)
  show List.insertionSort indexLe (List.filter (fun e => isArrayIndex e.1)
      ((o.filter (fun e => isArrayIndex e.1)).insertionSort indexLe ++
        o.filter (fun e => !isArrayIndex e.1))) ++
    List.filter (fun e => !isArrayIndex e.1)
      ((o.filter (fun e => isArrayIndex e.1)).insertionSort indexLe ++
        o.filter (fun e => !isArrayIndex e.1)) =
    (o.filter (fun e => isArrayIndex e.1)).insertionSort indexLe ++
      o.filter (fun e => !isArrayIndex e.1)
  rw [List.filter_append, List.filter_append, hSS, hRS, hSR, hRR, List.append_nil,
    List.nil_append, hsort]

/-- Assigning entries with distinct new keys, none of them `__proto__`, creates
the properties in the order of the assignments. -/
theorem foldl_set_eq (l acc : Dict RegionEntry) (hproto : ∀ e ∈ l, e.1 ≠ "__proto__")
    (hnodup : ((acc ++ l).map Prod.fst).Nodup) :
    l.foldl (fun fin e => fin.set e.1 { countries := e.2.countries, timezones := e.2.timezones })
      acc = acc ++ l := by
  induction l generalizing acc with
  | nil => simp
  | cons e l ih =>
    have hany : acc.any (fun x => x.1 == e.1) = false := by
      rw [List.any_eq_false]
      intro x hx h
      have hxe : x.1 = e.1 := by simpa using h
      rw [List.map_append, List.map_cons] at hnodup
      have := (List.nodup_append.mp hnodup).2.2
      exact this (List.mem_map_of_mem Prod.fst hx) (by rw [hxe]; exact List.mem_cons_self _ _)
    have hstep : acc.set e.1 { countries := e.2.countries, timezones := e.2.timezones } =
        acc ++ [e] := by
      simp [Dict.set, hproto e (List.mem_cons_self _ _), hany]
    rw [List.foldl_cons, hstep, ih (acc ++ [e])]
    · simp
    · intro x hx
      exact hproto x (List.mem_cons_of_mem _ hx)
    · simpa using hnodup

/-- The object `finalRegions` enumerates like `regions` when the keys of
`regions` are distinct and `__proto__` is none of them. -/
theorem finalizeRegions_eq (regions : Dict RegionEntry)
    (hproto : ∀ e ∈ regions, e.1 ≠ "__proto__") (hnodup : (regions.map Prod.fst).Nodup) :
    finalizeRegions regions = objectEntries regions := by
  unfold finalizeRegions
  have hperm := objectEntries_perm regions
  rw [foldl_set_eq (objectEntries regions) []]
  · simp
  · intro e he
    exact hproto e (hperm.mem_iff.mp he)
  · simpa using (hperm.map Prod.fst).nodup_iff.mpr hnodup

/-- The keys of the expected dictionary are the region keys in the order of
their first occurrence. -/
theorem expectedRegions_keys (cs : List Country) :
    (expectedRegions cs).map Prod.fst = firstOccurrences (cs.filterMap Country.regionKey) := by
  simp [expectedRegions, Function.comp_def]

/-- The aggregation of records the loop accepts returns the summaries of the
expected dictionary in enumeration order. -/
theorem aggregateRegions_expected (cs : List Country) (hcs : ∀ c ∈ cs, c.aggregates) :
    aggregateRegions cs = Except.ok ((objectEntries (expectedRegions cs)).map summaryOf) := by
  have hloop := forEachCountry_expected cs [] hcs
  have hnil : expectedRegions [] = [] := rfl
  rw [hnil, List.nil_append] at hloop
  unfold aggregateRegions
  rw [hloop]
  simp only
  congr 1
  rw [finalizeRegions_eq]
  · unfold summarize
    rw [objectEntries_idem]
    rfl
  · intro e he hproto
    have hk : e.1 ∈ (expectedRegions cs).map Prod.fst := List.mem_map_of_mem Prod.fst he
    rw [expectedRegions_keys, mem_firstOccurrences, List.mem_filterMap] at hk
    obtain ⟨c, hc, hck⟩ := hk
    apply (hcs c hc e.1 hck).1
    rw [hproto]
    decide
  · rw [expectedRegions_keys]
    exact nodup_firstOccurrences _

/-- An aggregation that does not throw ran on records the loop accepts. -/
theorem aggregates_of_aggregateRegions_ok (cs : List Country) (out : List RegionSummary)
    (h : aggregateRegions cs = Except.ok out) : ∀ c ∈ cs, c.aggregates := by
  unfold aggregateRegions at h
  cases hloop : forEachCountry cs [] with
  | error e => simp [hloop] at h
  | ok regions =>
    have hnil : expectedRegions [] = [] := rfl
    rw [← hnil] at hloop
    exact aggregates_of_forEachCountry_ok cs [] regions (by simp) hloop

/-- An aggregation that does not throw returns the summaries of the expected
dictionary in enumeration order. -/
theorem aggregateRegions_ok (cs : List Country) (out : List RegionSummary)
    (h : aggregateRegions cs = Except.ok out) :
    out = (objectEntries (expectedRegions cs)).map summaryOf := by
  have := aggregateRegions_expected cs (aggregates_of_aggregateRegions_ok cs out h)
  rw [h] at this
  exact Except.ok.inj this

/-! ## The region summaries (C1, C2, C7) -/

/-- The table of region mode never throws. -/
theorem updateTable_region_error (engine : SortEngine) (data : List Node) :
    (updateTable engine data "region").error = none :=
  (appendRows_ok "region" (sortNodes engine data)
    (fun d _ => renderRow_ok "region" d (fun h => absurd h (by decide)))).1

/-- The region cache after `updateData` in region mode, on a loaded country
cache and an empty region cache, holds the result of the aggregation. -/
theorem updateData_regionData (sqrt : ℚ → ℚ) (engine : SortEngine)
    (dataSelect : String) (cs : List Country)
    (out : List RegionSummary) :
    (updateData sqrt engine dataSelect false { countryData := some cs, regionData := none }
      ).state.regionData = some out ↔ aggregateRegions cs = Except.ok out := by
  simp only [updateData, Bool.false_eq_true, if_false]
  cases h : aggregateRegions cs with
  | error e => simp
  | ok rd => simp [chartOutcome]

/-- The regions of the summaries are the keys of the expected dictionary in
enumeration order. -/
theorem summary_regions (cs : List Country) :
    ((objectEntries (expectedRegions cs)).map summaryOf).map RegionSummary.region =
      (objectEntries (expectedRegions cs)).map Prod.fst := by
  simp [summaryOf, Function.comp_def]

/-- C1 at a failing input: on the single record of region `constructor` with the
timezone `UTC` the test `!regions[region]` of line 43 finds the inherited
`constructor`, no entry is created and line 49 ends the aggregation in a
`TypeError`; the region cache stays empty, where the claim has the one summary
of `constructor`. The same happens on a single record of region `X` that lacks
its `timezones` (line 50). -/
theorem region_named_constructor_throws :
    (updateData integerSqrt stableEngine "countriesInRegion" false
        { countryData := some [regionRecord (some "constructor") (some ["UTC"])],
          regionData := none }).state.regionData = none ∧
      (updateData integerSqrt stableEngine "countriesInRegion" false
        { countryData := some [regionRecord (some "constructor") (some ["UTC"])],
          regionData := none }).error =
        some "TypeError: regions[region].countries is undefined" ∧
      (updateData integerSqrt stableEngine "countriesInRegion" false
        { countryData := some [regionRecord (some "X") none],
          regionData := none }).state.regionData = none := by
  refine ⟨by rfl, by rfl, by rfl⟩

/-- Apart from those two defects the aggregation is what C1 describes: for every
list of country records in which no region is named like a member of
`Object.prototype` and every record with a non-empty region has its
`timezones`, the aggregation of `updateData` (country cache loaded, region
cache empty) throws nothing and stores exactly one summary per distinct
non-empty region of the list and no other; the summary of a region counts the
records that carry it and the distinct timezone strings of those records. -/
theorem region_summaries (sqrt : ℚ → ℚ) (engine : SortEngine)
    (dataSelect : String) (cs : List Country)
    (hkey : ∀ c ∈ cs, ∀ r, c.region = some r → r ∉ objectPrototypeKeys)
    (htz : ∀ c ∈ cs, ∀ r, c.region = some r → r ≠ "" → c.timezones ≠ none) :
    ∃ out,
      (updateData sqrt engine dataSelect false { countryData := some cs, regionData := none }
        ).state.regionData = some out ∧
      (updateData sqrt engine dataSelect false { countryData := some cs, regionData := none }
        ).error = none ∧
      (out.map RegionSummary.region).Nodup ∧
      (∀ r, r ∈ out.map RegionSummary.region ↔ r ≠ "" ∧ ∃ c ∈ cs, c.region = some r) ∧
      ∀ s ∈ out, s.countries = (members cs s.region).length ∧
        s.timezones = (memberTimezones cs s.region).toFinset.card := by
  have hcs : ∀ c ∈ cs, c.aggregates := by
    intro c hc r hk
    obtain ⟨hreg, hne⟩ := (regionKey_eq_some c r).mp hk
    exact ⟨hkey c hc r hreg, htz c hc r hreg hne⟩
  have hagg := aggregateRegions_expected cs hcs
  have hperm : ((objectEntries (expectedRegions cs)).map Prod.fst).Perm
      (firstOccurrences (cs.filterMap Country.regionKey)) := by
    rw [← expectedRegions_keys]
    exact (objectEntries_perm _).map _
  refine ⟨_, (updateData_regionData sqrt engine dataSelect cs _).mpr hagg, ?_, ?_, ?_, ?_⟩
  · simp only [updateData, Bool.false_eq_true, if_false, hagg, chartOutcome, updateChart]
    exact updateTable_region_error _ _
  · rw [summary_regions]
    exact hperm.nodup_iff.mpr (nodup_firstOccurrences _)
  · intro r
    rw [summary_regions, hperm.mem_iff, mem_firstOccurrences, mem_regionKeys]
  · intro s hs
    obtain ⟨e, he, rfl⟩ := List.mem_map.mp hs
    have he2 : e ∈ expectedRegions cs := (objectEntries_perm _).mem_iff.mp he
    simp only [expectedRegions, List.mem_map] at he2
    obtain ⟨r, -, rfl⟩ := he2
    simp [summaryOf, expectedEntry, length_firstOccurrences]

/-- The aggregation on the dataset of the specification: two records of region
`X` with timezones `UTC` and `UTC`, `GMT` give the single summary of `X` with
two countries and two timezones. -/
theorem region_summaries_witness :
    (updateData integerSqrt stableEngine "countriesInRegion" false
        { countryData := some [regionRecord (some "X") (some ["UTC"]),
            regionRecord (some "X") (some ["UTC", "GMT"])],
          regionData := none }).state.regionData =
        some [{ region := "X", countries := 2, timezones := 2 }] ∧
      ∃ out,
        (updateData integerSqrt stableEngine "countriesInRegion" false
          { countryData := some [regionRecord (some "X") (some ["UTC"]),
              regionRecord (some "X") (some ["UTC", "GMT"])],
            regionData := none }).state.regionData = some out ∧
        (out.map RegionSummary.region).Nodup :=
  ⟨by rfl,
    (region_summaries integerSqrt stableEngine "countriesInRegion"
      [regionRecord (some "X") (some ["UTC"]), regionRecord (some "X") (some ["UTC", "GMT"])]
      (by decide) (by decide)).imp (fun _ h => ⟨h.1, h.2.2.1⟩)⟩

/-- C2: for every list of country records and every summary the aggregation of
`updateData` produces, the timezone count of the summary is at most the sum of
the lengths of the timezone lists of the records of its region, and it equals
that sum exactly when no timezone string occurs twice among those lists. -/
theorem timezone_count_le_sum (sqrt : ℚ → ℚ) (engine : SortEngine)
    (dataSelect : String) (cs : List Country)
    (out : List RegionSummary)
    (h : (updateData sqrt engine dataSelect false { countryData := some cs, regionData := none }
      ).state.regionData = some out) :
    ∀ s ∈ out,
      s.timezones ≤ ((members cs s.region).map (fun c => (c.timezones.getD []).length)).sum ∧
      (s.timezones = ((members cs s.region).map (fun c => (c.timezones.getD []).length)).sum ↔
        (memberTimezones cs s.region).Nodup) := by
  have hout := aggregateRegions_ok cs out ((updateData_regionData sqrt engine dataSelect cs out).mp h)
  intro s hs
  rw [hout] at hs
  obtain ⟨e, he, rfl⟩ := List.mem_map.mp hs
  have he2 : e ∈ expectedRegions cs := (objectEntries_perm _).mem_iff.mp he
  simp only [expectedRegions, List.mem_map] at he2
  obtain ⟨r, -, rfl⟩ := he2
  have hsum : ((members cs r).map (fun c => (c.timezones.getD []).length)).sum =
      (memberTimezones cs r).length := by
    simp [memberTimezones, List.length_flatMap, Function.comp_def]
  have hcount : (summaryOf (r, expectedEntry cs r)).timezones =
      (memberTimezones cs r).toFinset.card := by
    simp [summaryOf, expectedEntry, length_firstOccurrences]
  show (summaryOf (r, expectedEntry cs r)).timezones ≤
      ((members cs r).map (fun c => (c.timezones.getD []).length)).sum ∧
    ((summaryOf (r, expectedEntry cs r)).timezones =
      ((members cs r).map (fun c => (c.timezones.getD []).length)).sum ↔
      (memberTimezones cs r).Nodup)
  rw [hsum, hcount]
  refine ⟨List.toFinset_card_le _, ?_⟩
  constructor
  · intro heq
    have := (Multiset.toFinset_card_eq_card_iff_nodup
      (m := (↑(memberTimezones cs r) : Multiset String))).mp (by simpa using heq)
    simpa using this
  · exact List.toFinset_card_of_nodup

/-- C2 on two records of region `X` that share the timezone `UTC`: the summary
counts two timezones, fewer than the three listed. -/
theorem timezone_count_le_sum_witness :
    (updateData integerSqrt stableEngine "uniqueTimezones" false
        { countryData := some [regionRecord (some "X") (some ["UTC"]),
            regionRecord (some "X") (some ["UTC", "GMT"])],
          regionData := none }).state.regionData =
        some [{ region := "X", countries := 2, timezones := 2 }] ∧
      ∀ s ∈ [({ region := "X", countries := 2, timezones := 2 } : RegionSummary)],
        s.timezones ≤ ((members [regionRecord (some "X") (some ["UTC"]),
            regionRecord (some "X") (some ["UTC", "GMT"])] s.region).map
          (fun c => (c.timezones.getD []).length)).sum ∧
        (s.timezones = ((members [regionRecord (some "X") (some ["UTC"]),
            regionRecord (some "X") (some ["UTC", "GMT"])] s.region).map
          (fun c => (c.timezones.getD []).length)).sum ↔
          (memberTimezones [regionRecord (some "X") (some ["UTC"]),
            regionRecord (some "X") (some ["UTC", "GMT"])] s.region).Nodup) :=
  ⟨by rfl, timezone_count_le_sum integerSqrt stableEngine "uniqueTimezones" _ _ (by rfl)⟩

/-- The first key with a property that no array index has is the same in the
enumeration of the expected dictionary as among the region keys of the records. -/
theorem find_objectEntries_keys (cs : List Country) (q : String → Bool)
    (hq : ∀ x, q x = true → isArrayIndex x = false) :
    ((objectEntries (expectedRegions cs)).map Prod.fst).find? q =
      (cs.filterMap Country.regionKey).find? q := by
  have hS : ∀ x ∈ ((expectedRegions cs).filter (fun e => isArrayIndex e.1)).insertionSort
      indexLe, ¬ (q ∘ Prod.fst) x = true := by
    intro e he hqe
    have := (List.perm_insertionSort indexLe _).mem_iff.mp he
    have hidx : isArrayIndex e.1 = true := (List.mem_filter.mp this).2
    rw [hq e.1 hqe] at hidx
    exact Bool.false_ne_true hidx
  have hfun : (fun a : String × RegionEntry =>
      decide ((!isArrayIndex a.1) = true ∧ (q ∘ Prod.fst) a = true)) = q ∘ Prod.fst := by
    funext a
    by_cases hqa : q a.1 = true
    · simp [hqa, hq a.1 hqa]
    · simp [hqa]
  unfold objectEntries
  rw [List.find?_map, List.find?_append, List.find?_eq_none.mpr hS, Option.none_or,
    List.find?_filter, hfun, ← List.find?_map, expectedRegions_keys, find_firstOccurrences]

/-- C7, as stated, fails: of a record of region `b` followed by a record of
region `1` the summaries list `1` before `b`, although `b` is encountered first. -/
theorem numeric_region_listed_first :
    (updateData integerSqrt stableEngine "countriesInRegion" false
        { countryData := some [regionRecord (some "b") (some ["UTC"]),
            regionRecord (some "1") (some ["GMT"])],
          regionData := none }).state.regionData =
        some [{ region := "1", countries := 1, timezones := 1 },
          { region := "b", countries := 1, timezones := 1 }] ∧
      List.findIdx (fun c => decide (c.region = some "b"))
          [regionRecord (some "b") (some ["UTC"]), regionRecord (some "1") (some ["GMT"])] <
        List.findIdx (fun c => decide (c.region = some "1"))
          [regionRecord (some "b") (some ["UTC"]), regionRecord (some "1") (some ["GMT"])] ∧
      ¬ List.indexOf "b" (["1", "b"] : List String) < List.indexOf "1" (["1", "b"] : List String) := by
  refine ⟨by rfl, by decide, by decide⟩

/-- C7, amended: for every list of country records the summaries produced by
the aggregation of `updateData` list the regions whose names are no array
indices in first-encounter order: for non-empty region strings `a` and `b` that
are no array indices, `a` precedes `b` in the output exactly when the first
record carrying `a` comes before the first record carrying `b` in the input. -/
theorem region_order (sqrt : ℚ → ℚ) (engine : SortEngine)
    (dataSelect : String) (cs : List Country)
    (out : List RegionSummary)
    (h : (updateData sqrt engine dataSelect false { countryData := some cs, regionData := none }
      ).state.regionData = some out)
    (a b : String) (ha : a ≠ "") (hb : b ≠ "") (hia : isArrayIndex a = false)
    (hib : isArrayIndex b = false) :
    (out.map RegionSummary.region).indexOf a < (out.map RegionSummary.region).indexOf b ↔
      cs.findIdx (fun c => decide (c.region = some a)) <
        cs.findIdx (fun c => decide (c.region = some b)) := by
  have hout := aggregateRegions_ok cs out ((updateData_regionData sqrt engine dataSelect cs out).mp h)
  rw [hout, summary_regions]
  by_cases hab : a = b
  · subst hab
    simp
  have hq : ∀ x, ((x == a) || (x == b)) = true → isArrayIndex x = false := by
    intro x hx
    rcases Bool.or_eq_true _ _ ▸ hx with h1 | h1
    · rw [beq_iff_eq.mp h1]; exact hia
    · rw [beq_iff_eq.mp h1]; exact hib
  have hleft := findIdx_lt_iff (fun x : String => x == a) (fun x => x == b)
    ((objectEntries (expectedRegions cs)).map Prod.fst)
    (fun x h1 h2 => hab ((beq_iff_eq.mp h1).symm.trans (beq_iff_eq.mp h2)))
  have hright := findIdx_lt_iff (fun c : Country => decide (c.region = some a))
    (fun c => decide (c.region = some b)) cs
    (fun c h1 h2 => hab (Option.some.inj
      ((of_decide_eq_true h1).symm.trans (of_decide_eq_true h2))))
  have hpred : (fun c : Country => Option.any (fun x => (x == a) || (x == b)) c.regionKey) =
      fun c => decide (c.region = some a) || decide (c.region = some b) := by
    funext c
    unfold Country.regionKey
    cases hr : c.region with
    | none => simp
    | some x =>
      by_cases hx : x = ""
      · subst hx
        simp [Ne.symm ha, Ne.symm hb]
      · simp only [hx, if_false, Option.any_some, Option.some.injEq]
        by_cases h1 : x = a <;> by_cases h2 : x = b <;> simp [h1, h2]
  show List.findIdx (fun x => x == a) _ < List.findIdx (fun x => x == b) _ ↔ _
  rw [hleft, hright, find_objectEntries_keys cs _ hq, List.find?_filterMap, hpred]
  constructor
  · rintro ⟨x, hfind, hxa⟩
    cases hc : cs.find? (fun c => decide (c.region = some a) || decide (c.region = some b)) with
    | none => simp [hc] at hfind
    | some c =>
      rw [hc] at hfind
      have hk : c.regionKey = some x := hfind
      rw [beq_iff_eq.mp hxa] at hk
      exact ⟨c, rfl, decide_eq_true ((regionKey_eq_some c a).mp hk).1⟩
  · rintro ⟨c, hfind, hca⟩
    refine ⟨a, ?_, by simp⟩
    rw [hfind]
    exact (regionKey_eq_some c a).mpr ⟨of_decide_eq_true hca, ha⟩

/-- The amended C7 on records of the regions `Europe`, `Asia`, `Europe`. -/
theorem region_order_witness :
    (updateData integerSqrt stableEngine "countriesInRegion" false
        { countryData := some [regionRecord (some "Europe") (some ["UTC"]),
            regionRecord (some "Asia") (some ["UTC+08:00"]),
            regionRecord (some "Europe") (some ["UTC+01:00"])],
          regionData := none }).state.regionData =
        some [{ region := "Europe", countries := 2, timezones := 2 },
          { region := "Asia", countries := 1, timezones := 1 }] ∧
      (List.indexOf "Europe"
          (List.map RegionSummary.region [{ region := "Europe", countries := 2, timezones := 2 },
            { region := "Asia", countries := 1, timezones := 1 }]) <
        List.indexOf "Asia"
          (List.map RegionSummary.region [{ region := "Europe", countries := 2, timezones := 2 },
            { region := "Asia", countries := 1, timezones := 1 }]) ↔
        List.findIdx (fun c => decide (c.region = some "Europe"))
            [regionRecord (some "Europe") (some ["UTC"]),
              regionRecord (some "Asia") (some ["UTC+08:00"]),
              regionRecord (some "Europe") (some ["UTC+01:00"])] <
          List.findIdx (fun c => decide (c.region = some "Asia"))
            [regionRecord (some "Europe") (some ["UTC"]),
              regionRecord (some "Asia") (some ["UTC+08:00"]),
              regionRecord (some "Europe") (some ["UTC+01:00"])]) :=
  ⟨by rfl,
    region_order integerSqrt stableEngine "countriesInRegion" _ _ (by rfl) "Europe" "Asia" (by decide)
      (by decide) (by decide) (by decide)⟩

end Script
